import Mathlib

/-!
Verification development for the Aamati mood-sensing / pattern-generation core.

The C++ sources are shallowly embedded:
* `float`/`double` values become exact rationals (`ℚ`); the float literals of the
  source (`0.3f`, `0.1` …) are taken at their decimal value.
* `juce::Random` (a 48-bit linear congruential generator) is embedded exactly and
  threaded through every function that consumes randomness.
* Possibly non-finite float inputs (NaN/Inf) are represented by the inductive
  `FVal`; transcendental library calls (`std::sin`, `std::sqrt`, `std::log2`) are
  abstracted as an explicit environment of functions `ℚ → ℚ`.
* `static_cast<int>` of a floating value is truncation toward zero (`qTrunc`).
-/

set_option maxRecDepth 8192

namespace Aamati

/-- Exact division of rationals, written so that it kernel-reduces on closed
inputs (the `/` of the `ℚ` field structure does not); `qdiv_eq` below proves it
is ordinary division. Division by zero yields 0, matching `ℚ`'s convention. -/
def qdiv (a b : ℚ) : ℚ := Rat.divInt (a.num * b.den) (a.den * b.num)

/-- Truncation toward zero, as C++ `static_cast<int>` behaves on floating values. -/
def qTrunc (q : ℚ) : ℤ := if q < 0 then q.ceil else q.floor

/-- C++ `std::round`: round half away from zero. -/
def qRound (q : ℚ) : ℤ :=
  if q < 0 then (q - mkRat 1 2).ceil else (q + mkRat 1 2).floor

/-- C `fmod`: truncated-division remainder (`fmod(a,b) = a - b*trunc(a/b)`);
the `b = 0` case (NaN in C) degenerates to `a` here and is never exercised. -/
def qFmod (a b : ℚ) : ℚ := a - b * qTrunc (qdiv a b)

/-- `juce::jlimit(lower, upper, value)`. -/
def jlimit {α : Type} [LinearOrder α] (lo hi v : α) : α :=
  if v < lo then lo else if hi < v then hi else v

/-- `juce::Random`: 48-bit LCG state. -/
structure Rng where
  seed : ℕ
deriving DecidableEq, Repr

/-- One LCG step; returns the 32 output bits (`(int) (seed >> 16)`, read back as
unsigned by the callers below) and the new state. -/
def Rng.next (r : Rng) : ℕ × Rng :=
  let s := (r.seed * 0x5deece66d + 11) % (2 ^ 48)
  (s >>> 16, ⟨s⟩)

/-- `juce::Random::nextInt (maxValue)`: `((unsigned) nextInt() * (uint64) maxValue) >> 32`.
All call sites pass a positive bound. -/
def Rng.nextInt (r : Rng) (maxValue : ℕ) : ℕ × Rng :=
  let p := r.next
  (p.1 * maxValue / 2 ^ 32, p.2)

/-- `juce::Random::nextFloat()`: the 32 output bits divided by `2^32`
(modelled exactly in `ℚ`). -/
def Rng.nextFloat (r : Rng) : ℚ × Rng :=
  let p := r.next
  (qdiv (p.1 : ℚ) (2 ^ 32), p.2)

/-- A `juce::MidiMessage` restricted to the note-on/note-off messages the core
produces: `isOnStatus` is the status nibble (`0x90` = `true`, `0x80` = `false`). -/
structure MidiMessage where
  isOnStatus : Bool
  channel : ℤ
  note : ℤ
  velocity : ℤ
  ts : ℚ
deriving DecidableEq, Repr

/-- `juce::MidiMessage::noteOn(channel, note, velocity)` followed by `setTimeStamp`. -/
def noteOnMsg (channel note velocity : ℤ) (ts : ℚ) : MidiMessage :=
  ⟨true, channel, note, velocity, ts⟩

/-- `juce::MidiMessage::noteOff(channel, note, velocity)` followed by `setTimeStamp`. -/
def noteOffMsg (channel note velocity : ℤ) (ts : ℚ) : MidiMessage :=
  ⟨false, channel, note, velocity, ts⟩

/-- `juce::MidiMessage::isNoteOn()`: status `0x90` and velocity ≠ 0. -/
def MidiMessage.isNoteOn (m : MidiMessage) : Bool :=
  m.isOnStatus && m.velocity != 0

/-- `juce::MidiMessage::isNoteOff()` (default flag): status `0x80`, or a
velocity-0 note-on. -/
def MidiMessage.isNoteOff (m : MidiMessage) : Bool :=
  !m.isOnStatus || (m.isOnStatus && m.velocity == 0)

/-- `std::max_element` with the `a.getTimeStamp() < b.getTimeStamp()` comparator:
the first element of maximal timestamp. -/
def latestByTimeStamp (x : MidiMessage) (xs : List MidiMessage) : MidiMessage :=
  xs.foldl (fun best cur => if best.ts < cur.ts then cur else best) x

/-- `AIMidiGenerator::mergeOverlappingNotes` (ModernUI.h:673-702), with the
`std::map<int, std::vector<MidiMessage>> activeNotes` represented as a function
from note number to its open note-ons (only keyed lookup/update/erase is used,
so map iteration order is irrelevant). -/
def mergeGo : List MidiMessage → (ℤ → List MidiMessage) → List MidiMessage
  | [], _ => []
  | m :: rest, act =>
    if m.isNoteOn then
      mergeGo rest (fun n => if n = m.note then act m.note ++ [m] else act n)
    else if m.isNoteOff then
      match h : act m.note with
      | [] => mergeGo rest act
      | x :: xs =>
        latestByTimeStamp x xs :: m ::
          mergeGo rest (fun n => if n = m.note then [] else act n)
    else
      mergeGo rest act

def mergeOverlappingNotes (messages : List MidiMessage) : List MidiMessage :=
  mergeGo messages (fun _ => [])

/-- No two note-ons for the same (pitch, channel) pair without an intervening
note-off for that pitch and channel (the spec's claimed invariant). -/
def noOverlapPitchChannel (l : List MidiMessage) : Prop :=
  ∀ pre mid post a c, l = pre ++ a :: (mid ++ c :: post) →
    a.isNoteOn = true → c.isNoteOn = true →
    a.note = c.note → a.channel = c.channel →
    ∃ b ∈ mid, b.isNoteOff = true ∧ b.note = a.note ∧ b.channel = a.channel

/-- No two note-ons for the same pitch (on any channels) without an intervening
note-off for that pitch. -/
def noOverlapPitch (l : List MidiMessage) : Prop :=
  ∀ pre mid post a c, l = pre ++ a :: (mid ++ c :: post) →
    a.isNoteOn = true → c.isNoteOn = true →
    ∃ b ∈ mid, b.isNoteOff = true ∧ b.note = a.note

/-- Merge output is a flat list of (note-on, note-off) pairs agreeing on the
note number. -/
inductive PairShaped : List MidiMessage → Prop
  | nil : PairShaped []
  | cons (a b : MidiMessage) (rest : List MidiMessage) :
      a.isNoteOn = true → b.isNoteOff = true → a.note = b.note →
      PairShaped rest → PairShaped (a :: b :: rest)

/-- A blended stream in which a note-off on channel 2 closes a note-on opened on
channel 1 for the same pitch: the merge pass keys open notes by pitch alone. -/
def c1Input : List MidiMessage :=
  [noteOnMsg 1 60 100 0, noteOffMsg 2 60 64 1,
   noteOnMsg 1 60 100 2, noteOffMsg 2 60 64 3]

/-- A float input value: finite (with its exact value) or non-finite. -/
inductive FVal where
  | fin (q : ℚ)
  | nan
  | posInf
  | negInf
deriving DecidableEq, Repr

/-- `std::isfinite`. -/
def FVal.isFinite : FVal → Bool
  | .fin _ => true
  | _ => false

/-- The numeric value of a finite float; the non-finite cases are unreachable
behind the `isfinite` gate that precedes every use. -/
def FVal.q : FVal → ℚ
  | .fin x => x
  | _ => 0

/-- The ONNX session interface: 5 features in, 10 class scores out. -/
def Session : Type := (Fin 5 → FVal) → Option (Fin 10 → ℚ)

/-- `ModelRunner::validateInputFeatures` (ModelRunner.cpp:254-298). -/
def validateInputFeatures (features : Fin 5 → FVal) : Bool :=
  if ¬ (List.ofFn features).all FVal.isFinite then false
  else if (features 0).q < 60 ∨ (features 0).q > 200 then false   -- Tempo
  else if (features 1).q < 0 ∨ (features 1).q > 1 then false      -- Swing
  else if (features 2).q < 0 ∨ (features 2).q > 10 then false     -- Density
  else if (features 3).q < 0 ∨ (features 3).q > 127 then false    -- Dynamic range
  else if (features 4).q < 0 ∨ (features 4).q > 1 then false      -- Energy
  else true

/-- `ModelRunner::getMoodLabels` (ModelRunner.cpp:338-345). -/
def getMoodLabels : List String :=
  ["chill", "energetic", "suspenseful", "uplifting", "ominous",
   "romantic", "gritty", "dreamy", "frantic", "focused"]

/-- One step of the arg-max loop of `predict` (ModelRunner.cpp:223-230):
strict `>` comparison, so the first (lowest-index) maximal score wins. -/
def argmaxStep (scores : List ℚ) (b : ℕ × ℚ) (i : ℕ) : ℕ × ℚ :=
  if scores.getD i 0 > b.2 then (i, scores.getD i 0) else b

/-- The arg-max scan of `predict` (ModelRunner.cpp:219-230): `bestIdx = 0`,
`bestScore = outData[0]`, then the loop over indices `1 … count-1`. -/
def argmaxScan (scores : List ℚ) (count : ℕ) : ℕ × ℚ :=
  (List.range' 1 (count - 1)).foldl (argmaxStep scores) (0, scores.getD 0 0)

/-- `ModelRunner::predict` (ModelRunner.cpp:167-252). -/
def predict (modelLoaded : Bool) (session : Session) (features : Fin 5 → FVal) :
    String :=
  if ¬ modelLoaded then "model_not_loaded"
  else if ¬ validateInputFeatures features then "invalid_input"
  else
    match session features with
    | none => "no_output"
    | some out =>
      let moodLabels := getMoodLabels
      if moodLabels.length ≠ 10 then "output_size_mismatch"
      else
        let scores := List.ofFn out
        let best := argmaxScan scores moodLabels.length
        if best.2 < mkRat 1 10 then "low_confidence"
        else if best.1 < moodLabels.length then moodLabels.getD best.1 "unknown"
        else "unknown"

/-- `ModelRunner::predictProbabilities` (ModelRunner.cpp:300-336): note the
absence of any feature validation. -/
def predictProbabilities (modelLoaded : Bool) (session : Session)
    (features : Fin 5 → FVal) : List ℚ :=
  if ¬ modelLoaded then []
  else
    match session features with
    | none => []                 -- session failure → exception → caught → {}
    | some out => List.ofFn out

/-- The spec-side arg-max characterization: `i` attains the maximal score and
is the lowest index among ties. -/
def isLowestArgmax (out : Fin 10 → ℚ) (i : Fin 10) : Prop :=
  (∀ j, out j ≤ out i) ∧ ∀ j, out j = out i → i ≤ j

/-- Concrete inputs for the arg-max witness: a valid feature vector and a score
vector peaking (value 2) at index 3. -/
def c4Features : Fin 5 → FVal := fun j => FVal.fin ((![100, 0, 1, 10, 1] : Fin 5 → ℚ) j)

def c4Scores : Fin 10 → ℚ := fun j => if (j : ℕ) = 3 then 2 else 0

/-! ## FeatureExtractor, batch-MIDI path (FeatureExtractor.cpp:85-136)

A parsed MIDI file is abstracted as the event list with the tick-to-seconds
mapping `MidiFile` provides after `doTimeAnalysis`; `none` models
`midi.read` failing. -/

structure GrooveFeatures where
  tempo : ℚ
  swing : ℚ
  density : ℚ
  dynamicRange : ℚ
  energy : ℚ
  velocityMean : ℚ
  velocityStd : ℚ
  pitchMean : ℚ
  pitchRange : ℚ
  avgPolyphony : ℚ
  syncopation : ℚ
  onsetEntropy : ℚ
deriving DecidableEq, Repr

/-- `{120.0f, 0.0f, 0.0f, 0.0f, 0.0f}`: aggregate initialization sets the first
five fields and value-initializes the rest to 0. -/
def fallbackGrooveFeatures : GrooveFeatures :=
  ⟨120, 0, 0, 0, 0, 0, 0, 0, 0, 0, 0, 0⟩

structure MidiEv where
  isNoteOnEv : Bool
  isDrum : Bool
  seconds : ℚ
  velocity : ℤ
deriving DecidableEq, Repr

structure MidiData where
  events : List MidiEv
  ticksPerQuarterNote : ℤ
  timeInSecondsOfTicks : ℤ → ℚ

/-- The event filter of the extraction loop: `isNoteOn() && isDrumNote()`. -/
def midiOnsets (m : MidiData) : List MidiEv :=
  m.events.filter (fun e => e.isNoteOnEv && e.isDrum)

def midiNoteTimes (m : MidiData) : List ℚ :=
  (midiOnsets m).map (·.seconds)

def midiVelocities (m : MidiData) : List ℤ :=
  (midiOnsets m).map (·.velocity)

/-- `endTime`: running maximum of the onset times, starting from `0.0f`. -/
def midiEndTime (m : MidiData) : ℚ :=
  (midiNoteTimes m).foldl (fun acc t => if t > acc then t else acc) 0

/-- `std::max_element` over ints (first maximal element), dereferenced. -/
def listMaxI (l : List ℤ) : ℤ :=
  l.foldl (fun a b => if a < b then b else a) (l.headD 0)

/-- `std::min_element` over ints (first minimal element), dereferenced. -/
def listMinI (l : List ℤ) : ℤ :=
  l.foldl (fun a b => if b < a then b else a) (l.headD 0)

/-- `FeatureExtractor::extractFeaturesFromMidi` (FeatureExtractor.cpp:85-136),
body after a successful parse. -/
def extractFeaturesFromMidiParsed (m : MidiData) : GrooveFeatures :=
  if (midiNoteTimes m).length < 2 ∨ midiEndTime m ≤ 0 then
    fallbackGrooveFeatures
  else
      let noteTimes := midiNoteTimes m
      let velocities := midiVelocities m
      let endTime := midiEndTime m
      let density := qdiv (noteTimes.length : ℚ) endTime
      -- deviation from the quantized 0.25 s grid
      let swingSum :=
        (noteTimes.map (fun t => |t - qdiv ((qRound (t * 4) : ℤ) : ℚ) 4|)).sum
      let swing := qdiv swingSum (noteTimes.length : ℚ)
      let maxVel := listMaxI velocities
      let minVel := listMinI velocities
      let dynamicRange := ((maxVel - minVel : ℤ) : ℚ)
      let meanVel := qdiv ((velocities.map (fun v => (v : ℚ))).sum)
        (velocities.length : ℚ)
      let energy := density * mkRat 1 2 + qdiv meanVel 127 * mkRat 1 2
      let tempo := if m.ticksPerQuarterNote > 0 then
          qdiv 60 (m.timeInSecondsOfTicks m.ticksPerQuarterNote)
        else 120
      ⟨tempo, swing, density, dynamicRange, energy, 0, 0, 0, 0, 0, 0, 0⟩

/-- `FeatureExtractor::extractFeaturesFromMidi`: `none` models `midi.read`
failing. -/
def extractFeaturesFromMidi (midi : Option MidiData) : GrooveFeatures :=
  match midi with
  | none => fallbackGrooveFeatures
  | some m => extractFeaturesFromMidiParsed m

/-- A one-onset drum file: parses, but has a single onset. -/
def c5Midi : MidiData := ⟨[⟨true, true, 1, 100⟩], 480, fun _ => 0⟩

/-! ## EmotionalOptimizer::blendProfiles (EmotionalOptimizer.cpp:199-210) -/

structure EmotionalProfile where
  energy : ℚ
  tension : ℚ
  complexity : ℚ
  danceability : ℚ
  warmth : ℚ
  brightness : ℚ
deriving DecidableEq, Repr

/-- `EmotionalOptimizer::blendProfiles`: per-dimension linear interpolation
`primary * blend + secondary * (1 - blend)`. -/
def blendProfiles (primary secondary : EmotionalProfile) (blend : ℚ) :
    EmotionalProfile where
  energy := primary.energy * blend + secondary.energy * (1 - blend)
  tension := primary.tension * blend + secondary.tension * (1 - blend)
  complexity := primary.complexity * blend + secondary.complexity * (1 - blend)
  danceability :=
    primary.danceability * blend + secondary.danceability * (1 - blend)
  warmth := primary.warmth * blend + secondary.warmth * (1 - blend)
  brightness := primary.brightness * blend + secondary.brightness * (1 - blend)

/-! ## GrooveShaper (GrooveShaper.h declarations, implementation in the
EmotionalOptimizer/GrooveShaper translation unit) -/

structure GrooveProfile where
  humanization : ℚ
  swingAmount : ℚ
  accentPattern : ℚ
  microTiming : ℚ
  velocityVariation : ℚ
  ghostNotes : ℚ
deriving DecidableEq, Repr

/-- `GrooveShaper::getBeatPosition`: `fmod(t * (tempo/60), timeSignature)`. -/
def getBeatPosition (timeInSeconds tempo timeSignature : ℚ) : ℚ :=
  qFmod (timeInSeconds * qdiv tempo 60) timeSignature

/-- `GrooveShaper::isOnBeat` (tolerance defaults to `0.1f`). -/
def isOnBeat (beatPosition tolerance : ℚ) : Bool :=
  |beatPosition - ((qRound beatPosition : ℤ) : ℚ)| < tolerance

/-- `GrooveShaper::isOffBeat`. -/
def isOffBeat (beatPosition tolerance : ℚ) : Bool :=
  !isOnBeat beatPosition tolerance && beatPosition > 0

/-- `GrooveShaper::isStrongBeat`: beats 1 and 3 within the measure. -/
def isStrongBeat (beatPosition timeSignature : ℚ) : Bool :=
  let beatInMeasure := qFmod beatPosition timeSignature
  beatInMeasure < mkRat 1 10 || |beatInMeasure - 2| < mkRat 1 10

/-- `GrooveShaper::calculateSwingOffset`. -/
def calculateSwingOffset (beatPosition swingAmount : ℚ) : ℚ :=
  if beatPosition ≥ mkRat 1 2 ∧ beatPosition < 1 then
    qdiv (beatPosition - mkRat 1 2) (mkRat 1 2) * swingAmount * mkRat 1 10
  else 0

/-- `GrooveShaper::calculateMicroTimingOffset` (`baseOffset` is unused in the
source as well). -/
def calculateMicroTimingOffset (baseOffset microTiming : ℚ) (r : Rng) :
    ℚ × Rng :=
  let p := r.nextFloat
  ((p.1 - mkRat 1 2) * 2 * microTiming * mkRat 1 20, p.2)

/-- `GrooveShaper::calculateAccentMultiplier`. -/
def calculateAccentMultiplier (beatPosition accentPattern timeSignature : ℚ) :
    ℚ :=
  let accent : ℚ :=
    if isStrongBeat beatPosition timeSignature then
      1 + accentPattern * mkRat 1 2
    else if isOffBeat beatPosition (mkRat 1 10) then
      1 - accentPattern * mkRat 3 10
    else 1
  jlimit (mkRat 1 10) 2 accent

/-- `GrooveShaper::calculateVelocityVariation`: bounded multiplicative jitter. -/
def calculateVelocityVariation (baseVelocity variation : ℚ) (r : Rng) :
    ℚ × Rng :=
  let p := r.nextFloat
  (baseVelocity * (1 + (p.1 - mkRat 1 2) * 2 * variation * mkRat 3 10), p.2)

/-- `GrooveShaper::applySwing`: shifts off-beat note timing. -/
def applySwing (midiMessages : List MidiMessage) (swingAmount tempo : ℚ) :
    List MidiMessage :=
  if swingAmount ≤ 0 then midiMessages
  else
    midiMessages.map (fun m =>
      if m.isNoteOn || m.isNoteOff then
        let beatPosition := getBeatPosition m.ts tempo 4
        if isOffBeat beatPosition (mkRat 1 10) then
          { m with ts :=
              m.ts + qdiv (calculateSwingOffset beatPosition swingAmount) tempo * 60 }
        else m
      else m)

/-- `GrooveShaper::applyMicroTiming`: random bounded offset per note event. -/
def applyMicroTiming (midiMessages : List MidiMessage) (microTiming tempo : ℚ)
    (r : Rng) : List MidiMessage × Rng :=
  if microTiming ≤ 0 then (midiMessages, r)
  else
    midiMessages.foldl
      (fun (st : List MidiMessage × Rng) m =>
        if m.isNoteOn || m.isNoteOff then
          let p := calculateMicroTimingOffset 0 microTiming st.2
          (st.1 ++ [{ m with ts := m.ts + qdiv p.1 tempo * 60 }], p.2)
        else (st.1 ++ [m], st.2))
      ([], r)

/-- `GrooveShaper::applyAccentPattern`. The fresh `noteOn` the source builds
has the default timestamp 0 — the original timestamp is not carried over. -/
def applyAccentPattern (midiMessages : List MidiMessage)
    (accentPattern timeSignature : ℚ) : List MidiMessage :=
  if accentPattern ≤ 0 then midiMessages
  else
    midiMessages.map (fun m =>
      if m.isNoteOn then
        let beatPosition := getBeatPosition m.ts 120 timeSignature
        let accentMultiplier :=
          calculateAccentMultiplier beatPosition accentPattern timeSignature
        noteOnMsg m.channel m.note
          (jlimit 1 127 (qTrunc ((m.velocity : ℚ) * accentMultiplier))) 0
      else m)

/-- `GrooveShaper::applyVelocityVariation`; same fresh-message timestamp reset
as `applyAccentPattern`. -/
def applyVelocityVariation (midiMessages : List MidiMessage) (variation : ℚ)
    (r : Rng) : List MidiMessage × Rng :=
  if variation ≤ 0 then (midiMessages, r)
  else
    midiMessages.foldl
      (fun (st : List MidiMessage × Rng) m =>
        if m.isNoteOn then
          let p := calculateVelocityVariation (m.velocity : ℚ) variation st.2
          (st.1 ++ [noteOnMsg m.channel m.note (jlimit 1 127 (qTrunc p.1)) 0],
           p.2)
        else (st.1 ++ [m], st.2))
      ([], r)

/-- `GrooveShaper::shouldAddGhostNote`: one `nextFloat` draw either way. -/
def shouldAddGhostNote (beatPosition ghostAmount : ℚ) (r : Rng) : Bool × Rng :=
  if isOffBeat beatPosition (mkRat 1 10) then
    let p := r.nextFloat
    (p.1 < ghostAmount * mkRat 3 10, p.2)
  else
    let p := r.nextFloat
    (p.1 < ghostAmount * mkRat 1 10, p.2)

/-- `GrooveShaper::addGhostNotes`. -/
def addGhostNotes (midiMessages : List MidiMessage) (ghostAmount tempo : ℚ)
    (r : Rng) : List MidiMessage × Rng :=
  if ghostAmount ≤ 0 then (midiMessages, r)
  else
    midiMessages.foldl
      (fun (st : List MidiMessage × Rng) m =>
        if m.isNoteOn then
          let beatPosition := getBeatPosition m.ts tempo 4
          let p := shouldAddGhostNote beatPosition ghostAmount st.2
          if p.1 then
            let ghostVelocity :=
              jlimit 1 127 (qTrunc ((m.velocity : ℚ) * mkRat 3 10))
            let ghostTime := m.ts + qdiv (mkRat 1 2) tempo * 60
            (st.1 ++ [m, noteOnMsg m.channel m.note ghostVelocity ghostTime,
              noteOffMsg m.channel m.note ghostVelocity (ghostTime + mkRat 1 10)],
             p.2)
          else (st.1 ++ [m], p.2)
        else (st.1 ++ [m], st.2))
      ([], r)

/-- `GrooveShaper::processGroove`: the five stages in their fixed order. -/
def processGroove (profile : GrooveProfile) (midiMessages : List MidiMessage)
    (tempo timeSignature : ℚ) (r : Rng) : List MidiMessage × Rng :=
  if midiMessages.isEmpty then (midiMessages, r)
  else
    let m1 := applySwing midiMessages profile.swingAmount tempo
    let p2 := applyMicroTiming m1 profile.microTiming tempo r
    let m3 := applyAccentPattern p2.1 profile.accentPattern timeSignature
    let p4 := applyVelocityVariation m3 profile.velocityVariation p2.2
    addGhostNotes p4.1 profile.ghostNotes tempo p4.2

/-! ## AIMidiGenerator (ModernUI.h:151-1409)

Transcendental library calls are abstracted as an environment of functions;
only `std::sin` (romantic pattern) is consumed by the generator, `std::sqrt`
and `std::log2` by the audio feature extractor. -/

structure Env where
  sinF : ℚ → ℚ
  sqrtF : ℚ → ℚ
  log2F : ℚ → ℚ

/-- `AIMidiGenerator::GeneratedPattern` with its default member values
(duration 1.0, confidence 0, patternType "melody"). -/
structure GeneratedPattern where
  messages : List MidiMessage
  duration : ℚ
  confidence : ℚ
  patternType : String
deriving DecidableEq, Repr

/-- `AIMidiGenerator::getMoodScale` (ModernUI.h:768-787). -/
def getMoodScale (mood : String) : List ℤ :=
  if mood == "chill" || mood == "dreamy" then [0, 2, 4, 5, 7, 9, 11]
  else if mood == "energetic" || mood == "frantic" then [0, 2, 4, 6, 7, 9, 11]
  else if mood == "suspenseful" || mood == "ominous" then [0, 2, 3, 5, 7, 8, 10]
  else if mood == "uplifting" then [0, 2, 4, 5, 7, 9, 11]
  else if mood == "romantic" then [0, 2, 4, 5, 7, 9, 11]
  else if mood == "gritty" then [0, 3, 5, 6, 7, 10]
  else if mood == "focused" then [0, 2, 4, 7, 9]
  else [0, 2, 4, 5, 7, 9, 11]

/-- `AIMidiGenerator::getMoodRhythm` (ModernUI.h:789-808). -/
def getMoodRhythm (mood : String) : ℚ :=
  if mood == "chill" || mood == "dreamy" then mkRat 4 5
  else if mood == "energetic" || mood == "frantic" then mkRat 1 5
  else if mood == "suspenseful" || mood == "ominous" then mkRat 3 5
  else if mood == "uplifting" then mkRat 3 10
  else if mood == "romantic" then mkRat 1 2
  else if mood == "gritty" then mkRat 1 4
  else if mood == "focused" then mkRat 2 5
  else mkRat 1 2

/-- `AIMidiGenerator::getMoodVelocity` (ModernUI.h:810-829). -/
def getMoodVelocity (mood : String) : ℤ :=
  if mood == "chill" || mood == "dreamy" then 50
  else if mood == "energetic" || mood == "frantic" then 90
  else if mood == "suspenseful" || mood == "ominous" then 60
  else if mood == "uplifting" then 80
  else if mood == "romantic" then 65
  else if mood == "gritty" then 85
  else if mood == "focused" then 70
  else 70

/-- Loop state for the per-mood generation loops: accumulated messages,
`currentTime`, and the RNG. -/
structure GenSt where
  messages : List MidiMessage
  t : ℚ
  rng : Rng

/-- `AIMidiGenerator::generateChillPattern` (ModernUI.h:985-1013). -/
def generateChillPattern (duration : ℚ) (r : Rng) : GeneratedPattern × Rng :=
  let noteCount := (qTrunc (duration * 2)).toNat
  let st := (List.range noteCount).foldl
    (fun (st : GenSt) _ =>
      let pN := st.rng.nextInt 12
      let note : ℤ := 60 + (pN.1 : ℤ)
      let pV := pN.2.nextInt 30
      let velocity : ℤ := 40 + (pV.1 : ℤ)
      let pT := pV.2.nextFloat
      { messages := st.messages ++
          [noteOnMsg 0 note velocity st.t, noteOffMsg 0 note velocity (st.t + 1)],
        t := st.t + mkRat 1 2 + pT.1 * mkRat 1 2,
        rng := pT.2 })
    ⟨[], 0, r⟩
  (⟨st.messages, duration, mkRat 4 5, "chill"⟩, st.rng)

/-- `AIMidiGenerator::generateEnergeticPattern` (ModernUI.h:1015-1043). -/
def generateEnergeticPattern (duration : ℚ) (r : Rng) : GeneratedPattern × Rng :=
  let noteCount := (qTrunc (duration * 8)).toNat
  let st := (List.range noteCount).foldl
    (fun (st : GenSt) _ =>
      let pN := st.rng.nextInt 24
      let note : ℤ := 60 + (pN.1 : ℤ)
      let pV := pN.2.nextInt 40
      let velocity : ℤ := 80 + (pV.1 : ℤ)
      let pT := pV.2.nextFloat
      { messages := st.messages ++
          [noteOnMsg 0 note velocity st.t,
           noteOffMsg 0 note velocity (st.t + mkRat 1 10)],
        t := st.t + mkRat 1 10 + pT.1 * mkRat 1 10,
        rng := pT.2 })
    ⟨[], 0, r⟩
  (⟨st.messages, duration, mkRat 9 10, "energetic"⟩, st.rng)

/-- `AIMidiGenerator::generateSuspensefulPattern` (ModernUI.h:1046-1082). -/
def generateSuspensefulPattern (duration : ℚ) (r : Rng) :
    GeneratedPattern × Rng :=
  let noteCount := (qTrunc (duration * 3)).toNat
  let st := (List.range noteCount).foldl
    (fun (st : GenSt) i =>
      let baseNote : ℤ := 60 + (i % 12 : ℕ)
      let p3 := st.rng.nextInt 3
      let note := jlimit 36 84 (baseNote + (p3.1 : ℤ) - 1)
      let pV := p3.2.nextInt 40
      let velocity : ℤ := 50 + (pV.1 : ℤ)
      let pL := pV.2.nextFloat
      let noteLength := mkRat 3 10 + pL.1 * mkRat 2 5
      let pT := pL.2.nextFloat
      { messages := st.messages ++
          [noteOnMsg 0 note velocity st.t,
           noteOffMsg 0 note velocity (st.t + noteLength)],
        t := st.t + mkRat 1 5 + pT.1 * mkRat 3 5,
        rng := pT.2 })
    ⟨[], 0, r⟩
  (⟨st.messages, duration, mkRat 17 20, "suspenseful"⟩, st.rng)

/-- `AIMidiGenerator::generateUpliftingPattern` (ModernUI.h:1085-1121); note
the source adds the scale-degree index itself and does not clamp. -/
def generateUpliftingPattern (duration : ℚ) (r : Rng) : GeneratedPattern × Rng :=
  let noteCount := (qTrunc (duration * 4)).toNat
  let st := (List.range noteCount).foldl
    (fun (st : GenSt) i =>
      let scaleDegree : ℤ := (i % 7 : ℕ)
      let octave : ℤ := 4 + (i / 7 : ℕ)
      let note := 60 + scaleDegree + octave * 12
      let pV := st.rng.nextInt 30
      let velocity : ℤ := 70 + (pV.1 : ℤ)
      let pL := pV.2.nextFloat
      let noteLength := mkRat 1 5 + pL.1 * mkRat 3 10
      let pT := pL.2.nextFloat
      { messages := st.messages ++
          [noteOnMsg 0 note velocity st.t,
           noteOffMsg 0 note velocity (st.t + noteLength)],
        t := st.t + mkRat 1 4 + pT.1 * mkRat 1 10,
        rng := pT.2 })
    ⟨[], 0, r⟩
  (⟨st.messages, duration, mkRat 9 10, "uplifting"⟩, st.rng)

/-- `AIMidiGenerator::generateOminousPattern` (ModernUI.h:1123-1167). -/
def generateOminousPattern (duration : ℚ) (r : Rng) : GeneratedPattern × Rng :=
  let noteCount := (qTrunc (duration * 2)).toNat
  let st := (List.range noteCount).foldl
    (fun (st : GenSt) i =>
      let scaleDegree : ℤ := ((6 - i % 7) % 7 : ℕ)
      let octave : ℤ := 5 - (i / 7 : ℕ)
      let note0 := 60 + scaleDegree + octave * 12
      let pC := st.rng.nextFloat
      let note1 := if pC.1 < mkRat 3 10 then note0 + 6 else note0
      let note := jlimit 36 84 note1
      let pV := pC.2.nextInt 30
      let velocity : ℤ := 30 + (pV.1 : ℤ)
      let pL := pV.2.nextFloat
      let noteLength := mkRat 4 5 + pL.1 * mkRat 2 5
      let pT := pL.2.nextFloat
      { messages := st.messages ++
          [noteOnMsg 0 note velocity st.t,
           noteOffMsg 0 note velocity (st.t + noteLength)],
        t := st.t + mkRat 1 2 + pT.1 * mkRat 3 10,
        rng := pT.2 })
    ⟨[], 0, r⟩
  (⟨st.messages, duration, mkRat 4 5, "ominous"⟩, st.rng)

/-- `AIMidiGenerator::generateRomanticPattern` (ModernUI.h:1169-1210); the
crescendo and rubato use `std::sin` through the environment. -/
def generateRomanticPattern (env : Env) (duration : ℚ) (r : Rng) :
    GeneratedPattern × Rng :=
  let noteCount := (qTrunc (duration * 3)).toNat
  let st := (List.range noteCount).foldl
    (fun (st : GenSt) i =>
      let interval : ℤ := if i % 2 = 0 then 4 else 7
      let baseNote : ℤ := 60 + (i % 12 : ℕ)
      let note := jlimit 48 84 (baseNote + interval)
      let crescendo := env.sinF (st.t * 2) * mkRat 3 10
      let velocity := jlimit 40 80 (qTrunc (60 + crescendo * 20))
      let pL := st.rng.nextFloat
      let noteLength := mkRat 2 5 + pL.1 * mkRat 2 5
      let rubato := env.sinF (st.t * mkRat 3 2) * mkRat 1 10
      { messages := st.messages ++
          [noteOnMsg 0 note velocity st.t,
           noteOffMsg 0 note velocity (st.t + noteLength)],
        t := st.t + mkRat 3 10 + rubato,
        rng := pL.2 })
    ⟨[], 0, r⟩
  (⟨st.messages, duration, mkRat 17 20, "romantic"⟩, st.rng)

/-- `AIMidiGenerator::generateGrittyPattern` (ModernUI.h:1212-1259). -/
def generateGrittyPattern (duration : ℚ) (r : Rng) : GeneratedPattern × Rng :=
  let noteCount := (qTrunc (duration * 6)).toNat
  let st := (List.range noteCount).foldl
    (fun (st : GenSt) i =>
      let bluesScale : List ℤ := [0, 3, 5, 6, 7, 10]
      let note0 := 60 + bluesScale.getD (i % 6) 0 + (4 + (i / 6 : ℕ) : ℤ) * 12
      let pC := st.rng.nextFloat
      let pGrit :=
        if pC.1 < mkRat 2 5 then
          let p3 := pC.2.nextInt 3
          (note0 + (p3.1 : ℤ) - 1, p3.2)
        else (note0, pC.2)
      let note := jlimit 36 84 pGrit.1
      let pV := pGrit.2.nextInt 40
      let velocity : ℤ := 80 + (pV.1 : ℤ)
      let pL := pV.2.nextFloat
      let noteLength := mkRat 1 10 + pL.1 * mkRat 1 5
      let baseTime := if i % 3 = 0 then mkRat 3 20 * mkRat 1 2 else mkRat 3 20
      let pT := pL.2.nextFloat
      { messages := st.messages ++
          [noteOnMsg 0 note velocity st.t,
           noteOffMsg 0 note velocity (st.t + noteLength)],
        t := st.t + baseTime + pT.1 * mkRat 1 10,
        rng := pT.2 })
    ⟨[], 0, r⟩
  (⟨st.messages, duration, mkRat 9 10, "gritty"⟩, st.rng)

/-- `AIMidiGenerator::generateDreamyPattern` (ModernUI.h:1261-1299). -/
def generateDreamyPattern (duration : ℚ) (r : Rng) : GeneratedPattern × Rng :=
  let noteCount := (qTrunc (duration * 2)).toNat
  let st := (List.range noteCount).foldl
    (fun (st : GenSt) i =>
      let wholeToneScale : List ℤ := [0, 2, 4, 6, 8, 10]
      let note := jlimit 48 84
        (60 + wholeToneScale.getD (i % 6) 0 + (4 + (i / 6 : ℕ) : ℤ) * 12)
      let pV := st.rng.nextInt 25
      let velocity : ℤ := 40 + (pV.1 : ℤ)
      let pL := pV.2.nextFloat
      let noteLength := 1 + pL.1 * 1
      let pT := pL.2.nextFloat
      { messages := st.messages ++
          [noteOnMsg 0 note velocity st.t,
           noteOffMsg 0 note velocity (st.t + noteLength)],
        t := st.t + mkRat 3 5 + pT.1 * mkRat 2 5,
        rng := pT.2 })
    ⟨[], 0, r⟩
  (⟨st.messages, duration, mkRat 4 5, "dreamy"⟩, st.rng)

/-- `AIMidiGenerator::generateFranticPattern` (ModernUI.h:1301-1336). -/
def generateFranticPattern (duration : ℚ) (r : Rng) : GeneratedPattern × Rng :=
  let noteCount := (qTrunc (duration * 12)).toNat
  let st := (List.range noteCount).foldl
    (fun (st : GenSt) _ =>
      let pN := st.rng.nextInt 24
      let note := jlimit 36 84 (60 + (pN.1 : ℤ) - 12)
      let pV := pN.2.nextInt 35
      let velocity : ℤ := 90 + (pV.1 : ℤ)
      let pL := pV.2.nextFloat
      let noteLength := mkRat 1 20 + pL.1 * mkRat 1 10
      let pT := pL.2.nextFloat
      { messages := st.messages ++
          [noteOnMsg 0 note velocity st.t,
           noteOffMsg 0 note velocity (st.t + noteLength)],
        t := st.t + mkRat 1 20 + pT.1 * mkRat 1 10,
        rng := pT.2 })
    ⟨[], 0, r⟩
  (⟨st.messages, duration, mkRat 19 20, "frantic"⟩, st.rng)

/-- `AIMidiGenerator::generateFocusedPattern` (ModernUI.h:1338-1376). -/
def generateFocusedPattern (duration : ℚ) (r : Rng) : GeneratedPattern × Rng :=
  let noteCount := (qTrunc (duration * 4)).toNat
  let st := (List.range noteCount).foldl
    (fun (st : GenSt) i =>
      let pentatonicScale : List ℤ := [0, 2, 4, 7, 9]
      let note := jlimit 48 84
        (60 + pentatonicScale.getD (i % 5) 0 + (4 + (i / 5 : ℕ) : ℤ) * 12)
      let pV := st.rng.nextInt 20
      let velocity : ℤ := 65 + (pV.1 : ℤ)
      let pL := pV.2.nextFloat
      let noteLength := mkRat 1 4 + pL.1 * mkRat 1 10
      { messages := st.messages ++
          [noteOnMsg 0 note velocity st.t,
           noteOffMsg 0 note velocity (st.t + noteLength)],
        t := st.t + mkRat 1 4,
        rng := pL.2 })
    ⟨[], 0, r⟩
  (⟨st.messages, duration, mkRat 9 10, "focused"⟩, st.rng)

/-- `AIMidiGenerator::generateDefaultPattern` (ModernUI.h:856-885): a fixed
C-major scale pattern, no randomness. -/
def generateDefaultPattern (duration : ℚ) : GeneratedPattern :=
  let noteCount := (qTrunc (duration * 4)).toNat
  let scaleArr : List ℤ := [60, 62, 64, 65, 67, 69, 71]
  let st := (List.range noteCount).foldl
    (fun (st : List MidiMessage × ℚ) i =>
      let note := scaleArr.getD (i % 7) 0
      (st.1 ++ [noteOnMsg 0 note 70 st.2,
                noteOffMsg 0 note 70 (st.2 + mkRat 1 2)],
       st.2 + mkRat 1 2))
    ([], 0)
  ⟨st.1, duration, mkRat 7 10, "default"⟩

/-- `AIMidiGenerator::generateMoodPattern` (ModernUI.h:446-465); the fallthrough
builds a fresh pattern with the default `patternType` ("melody") and
confidence 0.5. -/
def generateMoodPattern (env : Env) (mood : String) (duration : ℚ) (r : Rng) :
    GeneratedPattern × Rng :=
  if mood == "chill" then generateChillPattern duration r
  else if mood == "energetic" then generateEnergeticPattern duration r
  else if mood == "suspenseful" then generateSuspensefulPattern duration r
  else if mood == "uplifting" then generateUpliftingPattern duration r
  else if mood == "ominous" then generateOminousPattern duration r
  else if mood == "romantic" then generateRomanticPattern env duration r
  else if mood == "gritty" then generateGrittyPattern duration r
  else if mood == "dreamy" then generateDreamyPattern duration r
  else if mood == "frantic" then generateFranticPattern duration r
  else if mood == "focused" then generateFocusedPattern duration r
  else (⟨[], duration, mkRat 1 2, "melody"⟩, r)

/-- One iteration of `AIMidiGenerator::generateIntensifiedMoodPattern`'s loop
(ModernUI.h:535-579). -/
def intensifiedStep (mood : String) (intensity : ℤ) (st : GenSt) (i : ℕ) :
    GenSt :=
  let scale := getMoodScale mood
  let baseRhythm := getMoodRhythm mood
  let baseVelocity := getMoodVelocity mood
  let intensityMultiplier := 1 + ((intensity : ℚ) - 1) * mkRat 3 10
  let complexityMultiplier := 1 + ((intensity : ℚ) - 1) * mkRat 1 4
  let note1 := jlimit 36 84
    (scale.getD (i % scale.length) 0 + (4 + (i / scale.length : ℕ) : ℤ) * 12)
  let iv0 := jlimit 1 127 (qTrunc ((baseVelocity : ℚ) * intensityMultiplier))
  -- note/velocity after the complexity-variation block, with the RNG state
  let nvr : ℤ × ℤ × Rng :=
    if intensity > 1 then
      let pf := st.rng.nextFloat
      let nChrom : ℤ × Rng :=
        if pf.1 < complexityMultiplier * mkRat 3 10 then
          let p3 := pf.2.nextInt 3
          (jlimit 36 84 (note1 + (p3.1 : ℤ) - 1), p3.2)
        else (note1, pf.2)
      let pvv := nChrom.2.nextInt (qTrunc (20 * complexityMultiplier)).toNat
      let velocityVariation := (pvv.1 : ℤ) - qTrunc (10 * complexityMultiplier)
      (nChrom.1, jlimit 1 127 (iv0 + velocityVariation), pvv.2)
    else (note1, iv0, st.rng)
  let noteLength0 := qdiv baseRhythm intensityMultiplier
  let lr : ℚ × Rng :=
    if intensity > 2 then
      let pf := nvr.2.2.nextFloat
      (noteLength0 * (mkRat 7 10 + pf.1 * mkRat 3 5), pf.2)
    else (noteLength0, nvr.2.2)
  let tr : ℚ × Rng :=
    if intensity > 1 then
      let pf := lr.2.nextFloat
      (noteLength0 * (mkRat 4 5 + pf.1 * mkRat 2 5), pf.2)
    else (noteLength0, lr.2)
  { messages := st.messages ++
      [noteOnMsg 0 nvr.1 nvr.2.1 st.t,
       noteOffMsg 0 nvr.1 nvr.2.1 (st.t + lr.1)],
    t := st.t + tr.1,
    rng := tr.2 }

/-- `AIMidiGenerator::generateIntensifiedMoodPattern` (ModernUI.h:515-587). -/
def generateIntensifiedMoodPattern (mood : String) (intensity : ℤ)
    (duration : ℚ) (r : Rng) : GeneratedPattern × Rng :=
  let densityMultiplier := 1 + ((intensity : ℚ) - 1) * mkRat 1 5
  let noteCount := (qTrunc (duration * 4 * densityMultiplier)).toNat
  let st := (List.range noteCount).foldl (intensifiedStep mood intensity)
    ⟨[], 0, r⟩
  (⟨st.messages, duration,
    jlimit 0 1 (mkRat 4 5 + ((intensity : ℚ) - 1) * mkRat 1 20),
    "intensified-" ++ mood⟩, st.rng)

/-- `std::sort` with the timestamp comparator (deterministic refinement of the
unspecified tie order). -/
def sortByTimeStamp (l : List MidiMessage) : List MidiMessage :=
  l.mergeSort (fun a b => a.ts ≤ b.ts)

/-- `AIMidiGenerator::blendPatterns` (ModernUI.h:626-671): weighted note-on
velocities (the rebuilt note-ons carry the default timestamp 0, as in the
source), time sort, then the merge pass. -/
def blendPatterns (patterns : List GeneratedPattern) (weights : List ℚ) :
    GeneratedPattern :=
  match patterns with
  | [] => ⟨[], 0, 0, "blended"⟩
  | p0 :: _ =>
    let totalWeight := weights.foldl (· + ·) 0
    if totalWeight ≤ 0 then p0
    else
      let allMessages := (List.range patterns.length).foldl
        (fun acc i =>
          acc ++ ((patterns.getD i p0).messages.map (fun message =>
            if message.isNoteOn then
              noteOnMsg message.channel message.note
                (qTrunc ((message.velocity : ℚ) *
                  qdiv (weights.getD i 0) totalWeight)) 0
            else message))) []
      ⟨mergeOverlappingNotes (sortByTimeStamp allMessages), p0.duration, 0,
        "blended"⟩

/-- One iteration of `calculateHybridConfidence`'s loop (ModernUI.h:839-843). -/
def chcStep (env : Env) (weights : List ℚ) (st : ℚ × ℚ × Rng)
    (im : ℕ × String) : ℚ × ℚ × Rng :=
  let p := generateMoodPattern env im.2 1 st.2.2
  (st.1 + p.1.confidence * weights.getD im.1 0,
   st.2.1 + weights.getD im.1 0, p.2)

/-- `AIMidiGenerator::calculateHybridConfidence` (ModernUI.h:831-854). -/
def calculateHybridConfidence (env : Env) (moods : List String)
    (weights : List ℚ) (r : Rng) : ℚ × Rng :=
  if moods.isEmpty then (0, r)
  else
    let res := moods.enum.foldl (chcStep env weights) (0, 0, r)
    if res.2.1 ≤ 0 then (0, res.2.2)
    else
      (qdiv res.1 res.2.1 *
        jlimit (mkRat 1 2) 1 (1 - ((moods.length : ℚ) - 1) * mkRat 1 10),
       res.2.2)

/-- `AIMidiGenerator::generateHybridPattern` (ModernUI.h:468-513). -/
def generateHybridPattern (env : Env) (moods : List String) (weights : List ℚ)
    (duration : ℚ) (r : Rng) : GeneratedPattern × Rng :=
  if moods.isEmpty ∨ moods.length ≠ weights.length then
    (generateDefaultPattern duration, r)
  else if moods.all (fun m => m == moods.headD "") then
    let p := generateIntensifiedMoodPattern (moods.headD "")
      (moods.length : ℤ) duration r
    let cc := calculateHybridConfidence env moods weights p.2
    (⟨p.1.messages, p.1.duration, cc.1, p.1.patternType⟩, cc.2)
  else
    let totalWeight := weights.foldl (· + ·) 0
    if totalWeight ≤ 0 then (generateDefaultPattern duration, r)
    else
      let bp := moods.foldl
        (fun (st : List GeneratedPattern × Rng) mood =>
          let p := generateMoodPattern env mood duration st.2
          (st.1 ++ [p.1], p.2)) ([], r)
      let blended := blendPatterns bp.1 weights
      let cc := calculateHybridConfidence env moods weights bp.2
      (⟨blended.messages, blended.duration, cc.1, blended.patternType⟩, cc.2)

/-- A concrete transcendental environment for closed instances (the moods used
below never consult it). -/
def env0 : Env := ⟨fun _ => 0, fun _ => 0, fun _ => 0⟩

/-- Number of note-on events in a message list. -/
def noteOnCount (msgs : List MidiMessage) : ℕ :=
  (msgs.filter (fun m => m.isNoteOn)).length

/-- Mean velocity over the note-on events of a message list. -/
def meanVelocity (msgs : List MidiMessage) : ℚ :=
  qdiv (((msgs.filter (fun m => m.isNoteOn)).map
    (fun m => (m.velocity : ℚ))).sum)
    (((msgs.filter (fun m => m.isNoteOn)).length : ℚ))

/-- `static_cast<size_t>` of a floating value (the sample-rate casts). -/
def ratToSizeT (q : ℚ) : ℕ := (qTrunc q).toNat

/-- `FeatureExtractor::MAX_HISTORY_SIZE = 44100 * 10`. -/
def MAX_HISTORY_SIZE : ℕ := 44100 * 10

/-- `FeatureExtractor::calculateAutocorrelation` (FeatureExtractor.cpp:169-192). -/
def calculateAutocorrelation (audioData : List ℚ) : List ℚ :=
  let maxLag := min (audioData.length / 2) 44100
  (List.range maxLag).map (fun lag =>
    let count := audioData.length - lag
    let sum := ((List.range count).map
      (fun i => audioData.getD i 0 * audioData.getD (i + lag) 0)).sum
    if count > 0 then qdiv sum (count : ℚ) else 0)

/-- `FeatureExtractor::findPeaks` (FeatureExtractor.cpp:194-208). -/
def findPeaks (data : List ℚ) : List ℕ :=
  (List.range data.length).filter (fun i =>
    1 ≤ i ∧ i + 1 < data.length ∧
    data.getD i 0 > data.getD (i - 1) 0 ∧
    data.getD i 0 > data.getD (i + 1) 0 ∧
    data.getD i 0 > mkRat 1 10)

/-- `FeatureExtractor::calculateTempo` (FeatureExtractor.cpp:139-167). -/
def calculateTempo (audioData : List ℚ) (sampleRate : ℚ) : ℚ :=
  if audioData.length < ratToSizeT sampleRate then 120
  else
    let peakIndices := findPeaks (calculateAutocorrelation audioData)
    if peakIndices.isEmpty then 120
    else
      let tempos := (List.range (peakIndices.length - 1)).foldl
        (fun acc i =>
          let interval := qdiv
            (((peakIndices.getD (i + 1) 0 : ℤ) -
              (peakIndices.getD i 0 : ℤ) : ℤ) : ℚ) sampleRate
          if interval > mkRat 1 10 ∧ interval < 2 then
            acc ++ [qdiv 60 interval]
          else acc) []
      if tempos.isEmpty then 120
      else (tempos.mergeSort (fun a b => a ≤ b)).getD (tempos.length / 2) 0

/-- `FeatureExtractor::detectOnsets` (FeatureExtractor.cpp:241-263). -/
def detectOnsets (audioData : List ℚ) (sampleRate : ℚ) : List ℚ :=
  (((List.range audioData.length).drop 1).foldl
    (fun (st : List ℚ × ℚ) i =>
      let currentEnergy := |audioData.getD i 0|
      (if currentEnergy > st.2 * mkRat 3 2 ∧ currentEnergy > mkRat 1 10 then
        st.1 ++ [qdiv (i : ℚ) sampleRate]
      else st.1, currentEnergy))
    ([], 0)).1

/-- `FeatureExtractor::calculateSwing` (FeatureExtractor.cpp:210-239). -/
def calculateSwing (audioData : List ℚ) (sampleRate : ℚ) : ℚ :=
  if audioData.length < ratToSizeT sampleRate then 0
  else
    let onsets := detectOnsets audioData sampleRate
    if onsets.length < 4 then 0
    else
      let res := (List.range (onsets.length - 2)).foldl
        (fun (st : ℚ × ℕ) i =>
          let interval1 := onsets.getD (i + 1) 0 - onsets.getD i 0
          let interval2 := onsets.getD (i + 2) 0 - onsets.getD (i + 1) 0
          if interval1 > interval2 * mkRat 3 2 then
            (st.1 + |qdiv interval2 interval1 - mkRat 67 100|, st.2 + 1)
          else st) (0, 0)
      if res.2 > 0 then qdiv res.1 (res.2 : ℚ) else 0

/-- `FeatureExtractor::calculateDensity` (FeatureExtractor.cpp:265-281). -/
def calculateDensity (audioData : List ℚ) (sampleRate : ℚ) : ℚ :=
  let significantEvents := (audioData.filter (fun s => |s| > mkRat 1 10)).length
  let duration := qdiv (audioData.length : ℚ) sampleRate
  if duration > 0 then qdiv (significantEvents : ℚ) duration else 0

/-- `FeatureExtractor::calculateDynamicRange` (FeatureExtractor.cpp:283-289). -/
def calculateDynamicRange (audioData : List ℚ) : ℚ :=
  if audioData.isEmpty then 0
  else
    audioData.foldl (fun a b => if a < b then b else a) (audioData.headD 0) -
      audioData.foldl (fun a b => if b < a then b else a) (audioData.headD 0)

/-- `FeatureExtractor::calculateEnergy` (FeatureExtractor.cpp:291-302): RMS via
the abstracted square root. -/
def calculateEnergy (env : Env) (audioData : List ℚ) : ℚ :=
  if audioData.isEmpty then 0
  else env.sqrtF (qdiv ((audioData.map (fun s => s * s)).sum)
    (audioData.length : ℚ))

/-- `FeatureExtractor::calculateVelocityMean` (FeatureExtractor.cpp:304-315). -/
def calculateVelocityMean (velocityData : List ℚ) : ℚ :=
  if velocityData.isEmpty then 0
  else qdiv velocityData.sum (velocityData.length : ℚ)

/-- `FeatureExtractor::calculateVelocityStd` (FeatureExtractor.cpp:317-331):
sample standard deviation (divides by n−1). -/
def calculateVelocityStd (env : Env) (velocityData : List ℚ) : ℚ :=
  if velocityData.length < 2 then 0
  else
    let mean := calculateVelocityMean velocityData
    env.sqrtF (qdiv
      ((velocityData.map (fun v => (v - mean) * (v - mean))).sum)
      ((velocityData.length - 1 : ℕ) : ℚ))

/-- `FeatureExtractor::calculatePitchMean` (FeatureExtractor.cpp:333-344). -/
def calculatePitchMean (pitchData : List ℚ) : ℚ :=
  if pitchData.isEmpty then 0
  else qdiv pitchData.sum (pitchData.length : ℚ)

/-- `FeatureExtractor::calculatePitchRange` (FeatureExtractor.cpp:346-352). -/
def calculatePitchRange (pitchData : List ℚ) : ℚ :=
  if pitchData.isEmpty then 0
  else
    pitchData.foldl (fun a b => if a < b then b else a) (pitchData.headD 0) -
      pitchData.foldl (fun a b => if b < a then b else a) (pitchData.headD 0)

/-- `FeatureExtractor::calculateAvgPolyphony` (FeatureExtractor.cpp:354-370). -/
def calculateAvgPolyphony (audioData : List ℚ) : ℚ :=
  qdiv (((audioData.filter (fun s => |s| > mkRat 1 10)).length : ℕ) : ℚ)
    (audioData.length : ℚ)

/-- `FeatureExtractor::calculateSyncopation` (FeatureExtractor.cpp:372-395). -/
def calculateSyncopation (audioData : List ℚ) (sampleRate : ℚ) : ℚ :=
  let res := ((List.range audioData.length).drop 1).foldl
    (fun (st : ℚ × ℕ) i =>
      if i + 1 < audioData.length ∧ |audioData.getD i 0| > mkRat 1 10 then
        let beatPosition := qFmod (qdiv (i : ℚ) sampleRate * 2) 1
        if beatPosition > mkRat 1 4 ∧ beatPosition < mkRat 3 4 then
          (st.1 + |audioData.getD i 0|, st.2 + 1)
        else st
      else st) (0, 0)
  if res.2 > 0 then qdiv res.1 (res.2 : ℚ) else 0

/-- `FeatureExtractor::calculateOnsetEntropy` (FeatureExtractor.cpp:397-437):
Shannon-style accumulation via the abstracted `log2`. -/
def calculateOnsetEntropy (env : Env) (audioData : List ℚ) (sampleRate : ℚ) :
    ℚ :=
  let onsets := ((List.range audioData.length).filter (fun i =>
    1 ≤ i ∧ i + 1 < audioData.length ∧
    audioData.getD i 0 > audioData.getD (i - 1) 0 ∧
    audioData.getD i 0 > audioData.getD (i + 1) 0 ∧
    audioData.getD i 0 > mkRat 1 10)).map (fun i => qdiv (i : ℚ) sampleRate)
  if onsets.length < 2 then 0
  else
    let intervals := (List.range (onsets.length - 1)).map
      (fun i => onsets.getD (i + 1) 0 - onsets.getD i 0)
    intervals.foldl (fun entropy interval =>
      if interval > 0 then
        let probability := qdiv interval (onsets.getLastD 0 - onsets.headD 0)
        if probability > 0 then entropy - probability * env.log2F probability
        else entropy
      else entropy) 0

/-- The three rolling histories of `FeatureExtractor`; the constructor starts
them empty. -/
structure ExtractorState where
  audioHistory : List ℚ
  velocityHistory : List ℚ
  pitchHistory : List ℚ
deriving DecidableEq, Repr

def initialExtractorState : ExtractorState := ⟨[], [], []⟩

/-- The channel-major flattening of a `juce::AudioBuffer` (outer loop over
channels, inner over samples). -/
def flattenBuffer (buffer : List (List ℚ)) : List ℚ :=
  buffer.foldl (fun acc ch => acc ++ ch) []

/-- The history append + eviction block of `extractFeaturesFromAudio`
(FeatureExtractor.cpp:33-59): push samples, derived velocities (`|s|`) and
pitch proxies (`(s+1)*64`), then erase the oldest `excess` entries of all
three histories once the audio history exceeds `MAX_HISTORY_SIZE`. -/
def historyUpdate (st : ExtractorState) (samples : List ℚ) : ExtractorState :=
  let audioH := st.audioHistory ++ samples
  let velH := st.velocityHistory ++ samples.map (fun s => |s|)
  let pitchH := st.pitchHistory ++ samples.map (fun s => (s + 1) * 64)
  if audioH.length > MAX_HISTORY_SIZE then
    let excess := audioH.length - MAX_HISTORY_SIZE
    ⟨audioH.drop excess, velH.drop excess, pitchH.drop excess⟩
  else ⟨audioH, velH, pitchH⟩

/-- `FeatureExtractor::extractFeaturesFromAudio` (FeatureExtractor.cpp:31-83). -/
def extractFeaturesFromAudio (env : Env) (st : ExtractorState)
    (buffer : List (List ℚ)) (sampleRate : ℚ) :
    ExtractorState × Option GrooveFeatures :=
  let st2 := historyUpdate st (flattenBuffer buffer)
  if st2.audioHistory.length < ratToSizeT sampleRate then (st2, none)
  else
    (st2, some
      { tempo := calculateTempo st2.audioHistory sampleRate
        swing := calculateSwing st2.audioHistory sampleRate
        density := calculateDensity st2.audioHistory sampleRate
        dynamicRange := calculateDynamicRange st2.audioHistory
        energy := calculateEnergy env st2.audioHistory
        velocityMean := calculateVelocityMean st2.velocityHistory
        velocityStd := calculateVelocityStd env st2.velocityHistory
        pitchMean := calculatePitchMean st2.pitchHistory
        pitchRange := calculatePitchRange st2.pitchHistory
        avgPolyphony := calculateAvgPolyphony st2.audioHistory
        syncopation := calculateSyncopation st2.audioHistory sampleRate
        onsetEntropy := calculateOnsetEntropy env st2.audioHistory sampleRate })

theorem num_eq_mul_den (q : ℚ) : (q.num : ℚ) = q * (q.den : ℚ) :=
  (div_eq_iff (by exact_mod_cast q.den_pos.ne')).mp (Rat.num_div_den q)

theorem qdiv_eq (a b : ℚ) : qdiv a b = a / b := by
  unfold qdiv
  rcases eq_or_ne b 0 with hb | hb
  · subst hb
    norm_num
  · have hda : ((a.den : ℚ)) ≠ 0 := by exact_mod_cast a.den_pos.ne'
    have hdb : ((b.den : ℚ)) ≠ 0 := by exact_mod_cast b.den_pos.ne'
    have hnb : ((b.num : ℚ)) ≠ 0 := by
      rw [num_eq_mul_den b]
      exact mul_ne_zero hb hdb
    rw [Rat.divInt_eq_div]
    push_cast
    rw [div_eq_div_iff (mul_ne_zero hda hnb) hb]
    rw [num_eq_mul_den a, num_eq_mul_den b]
    ring

theorem not_isNoteOn_and_isNoteOff (m : MidiMessage) :
    m.isNoteOn = true → m.isNoteOff = true → False := by
  simp [MidiMessage.isNoteOn, MidiMessage.isNoteOff]
  intro h1 h2
  simp [h1, h2]

theorem latestByTimeStamp_mem (x : MidiMessage) (xs : List MidiMessage) :
    latestByTimeStamp x xs ∈ x :: xs := by
  induction xs generalizing x with
  | nil => simp [latestByTimeStamp]
  | cons c cs ih =>
    have h0 : latestByTimeStamp x (c :: cs) =
        latestByTimeStamp (if x.ts < c.ts then c else x) cs := rfl
    rw [h0]
    rcases List.mem_cons.1 (ih (if x.ts < c.ts then c else x)) with h | h
    · rw [h]
      split
      · exact List.mem_cons_of_mem x (List.mem_cons_self c cs)
      · exact List.mem_cons_self x (c :: cs)
    · exact List.mem_cons_of_mem x (List.mem_cons_of_mem c h)

theorem mergeGo_pairShaped :
    ∀ (msgs : List MidiMessage) (act : ℤ → List MidiMessage),
      (∀ n x, x ∈ act n → x.isNoteOn = true ∧ x.note = n) →
      PairShaped (mergeGo msgs act) := by
  intro msgs
  induction msgs with
  | nil => intro act _; exact PairShaped.nil
  | cons m rest ih =>
    intro act hact
    unfold mergeGo
    split
    · -- note-on branch
      apply ih
      intro n x hx
      by_cases hn : n = m.note
      · subst hn
        simp only [if_pos rfl] at hx
        rcases List.mem_append.1 hx with h | h
        · exact hact _ _ h
        · simp only [List.mem_singleton] at h
          subst h
          exact ⟨by assumption, rfl⟩
      · simp only [if_neg hn] at hx
        exact hact _ _ hx
    · split
      · -- note-off branch
        split
        · exact ih act hact
        · rename_i hOn hOff x xs hEq
          have hmem : latestByTimeStamp x xs ∈ act m.note := by
            rw [hEq]; exact latestByTimeStamp_mem x xs
          have hlat := hact _ _ hmem
          refine PairShaped.cons _ _ _ hlat.1 (by assumption) (hlat.2.trans rfl) ?_
          apply ih
          intro n y hy
          by_cases hn : n = m.note
          · subst hn; simp at hy
          · simp only [if_neg hn] at hy
            exact hact _ _ hy
      · exact ih act hact

theorem pairShaped_noOverlapPitch :
    ∀ l, PairShaped l → noOverlapPitch l := by
  intro l hl
  induction hl with
  | nil =>
    intro pre mid post a c hEq _ _
    exfalso
    cases pre <;> simp at hEq
  | cons a0 b0 rest hOn hOff hNote _ ih =>
    intro pre mid post a c hEq haOn hcOn
    match pre with
    | [] =>
      simp only [List.nil_append, List.cons.injEq] at hEq
      obtain ⟨ha, hrest⟩ := hEq
      match mid with
      | [] =>
        simp only [List.nil_append, List.cons.injEq] at hrest
        obtain ⟨hc, _⟩ := hrest
        rw [← hc] at hcOn
        exact (not_isNoteOn_and_isNoteOff b0 hcOn hOff).elim
      | b :: mid' =>
        simp only [List.cons_append, List.cons.injEq] at hrest
        obtain ⟨hb, _⟩ := hrest
        refine ⟨b, List.mem_cons_self b mid', ?_, ?_⟩
        · rw [← hb]; exact hOff
        · rw [← hb, ← ha]; exact hNote.symm
    | p :: pre' =>
      simp only [List.cons_append, List.cons.injEq] at hEq
      obtain ⟨_, hEq2⟩ := hEq
      match pre' with
      | [] =>
        simp only [List.nil_append, List.cons.injEq] at hEq2
        obtain ⟨hb, _⟩ := hEq2
        rw [← hb] at haOn
        exact (not_isNoteOn_and_isNoteOff b0 haOn hOff).elim
      | q :: pre'' =>
        simp only [List.cons_append, List.cons.injEq] at hEq2
        obtain ⟨_, hEq3⟩ := hEq2
        exact ih pre'' mid post a c hEq3 haOn hcOn

/-- Claim C1, counterexample: the merge pass keys its `activeNotes` map by note
number only, so its output can contain two note-ons for the same
(pitch, channel) pair whose only intervening note-off is on a different
channel. -/
theorem C1_counterexample :
    ¬ noOverlapPitchChannel (mergeOverlappingNotes c1Input) := by
  intro h
  obtain ⟨b, hb, _, _, hch⟩ :=
    h [] [noteOffMsg 2 60 64 1] [noteOffMsg 2 60 64 3]
      (noteOnMsg 1 60 100 0) (noteOnMsg 1 60 100 2)
      (by decide) (by decide) (by decide) (by decide) (by decide)
  rw [List.mem_singleton] at hb
  subst hb
  simp [noteOffMsg, noteOnMsg] at hch

/-- Claim C1, amended: for every input message sequence, the merge-pass output
never contains two note-on events for the same pitch (regardless of channel)
without an intervening note-off for that pitch. -/
theorem C1_merge_noOverlapPitch (messages : List MidiMessage) :
    noOverlapPitch (mergeOverlappingNotes messages) :=
  pairShaped_noOverlapPitch _
    (mergeGo_pairShaped messages _
      (fun _ x hx => absurd hx (List.not_mem_nil x)))

/-! ## ModelRunner (ModelRunner.cpp)

The ONNX session is abstracted as a function from the 5 input features to the
10 output scores (`none` models a session failure surfacing as an exception).
Statements quantify over this session function: a result that is the same for
every session — and is reached before the session argument is ever applied —
demonstrates that inference is not invoked. -/

/-- What passing the validation gate guarantees. -/
theorem validateInputFeatures_ranges (f : Fin 5 → FVal)
    (h : validateInputFeatures f = true) :
    (∀ i, (f i).isFinite = true) ∧
      ¬((f 0).q < 60 ∨ (f 0).q > 200) ∧
      ¬((f 1).q < 0 ∨ (f 1).q > 1) ∧
      ¬((f 2).q < 0 ∨ (f 2).q > 10) ∧
      ¬((f 3).q < 0 ∨ (f 3).q > 127) ∧
      ¬((f 4).q < 0 ∨ (f 4).q > 1) := by
  unfold validateInputFeatures at h
  split_ifs at h with h1 h2 h3 h4 h5 h6
  refine ⟨?_, h2, h3, h4, h5, h6⟩
  simp only [List.all_eq_true, List.mem_ofFn] at h1
  exact fun i => h1 (f i) ⟨i, rfl⟩

/-- Claim C2: on any non-finite or out-of-range feature vector, `predict`
returns the invalid-input outcome; the result is reached before the session is
applied and is therefore uniform in the session (the model is never invoked). -/
theorem C2_predict_invalid_input (features : Fin 5 → FVal)
    (h : (∃ i, (features i).isFinite = false) ∨
      (features 0).q < 60 ∨ (features 0).q > 200 ∨
      (features 1).q < 0 ∨ (features 1).q > 1 ∨
      (features 2).q < 0 ∨ (features 2).q > 10 ∨
      (features 3).q < 0 ∨ (features 3).q > 127 ∨
      (features 4).q < 0 ∨ (features 4).q > 1) :
    ∀ session : Session, predict true session features = "invalid_input" := by
  intro session
  have hv : ¬ validateInputFeatures features = true := by
    intro hval
    obtain ⟨hfin, r0, r1, r2, r3, r4⟩ := validateInputFeatures_ranges features hval
    rcases h with ⟨i, hi⟩ | h
    · rw [hfin i] at hi
      simp at hi
    · tauto
  unfold predict
  simp [hv]

/-- Claim C2 witness: an all-NaN vector is rejected. -/
theorem C2_witness :
    ((∃ i : Fin 5, (FVal.nan).isFinite = false) ∨
      (FVal.nan).q < 60 ∨ (FVal.nan).q > 200 ∨
      (FVal.nan).q < 0 ∨ (FVal.nan).q > 1 ∨
      (FVal.nan).q < 0 ∨ (FVal.nan).q > 10 ∨
      (FVal.nan).q < 0 ∨ (FVal.nan).q > 127 ∨
      (FVal.nan).q < 0 ∨ (FVal.nan).q > 1) ∧
    predict true (fun _ => none) (fun _ => FVal.nan) = "invalid_input" :=
  ⟨Or.inl ⟨0, rfl⟩,
    C2_predict_invalid_input (fun _ => FVal.nan) (Or.inl ⟨0, rfl⟩) (fun _ => none)⟩

/-- Claim C3, counterexample: `predictProbabilities` runs inference on an
all-NaN feature vector — the result is exactly the session's scores, and two
different sessions give different results, so the model is invoked without any
feature gate. -/
theorem C3_counterexample :
    predictProbabilities true (fun _ => some (fun _ => (1 : ℚ))) (fun _ => FVal.nan) =
      List.ofFn (fun _ : Fin 10 => (1 : ℚ)) ∧
    predictProbabilities true (fun _ => some (fun _ => (1 : ℚ))) (fun _ => FVal.nan) ≠
      predictProbabilities true (fun _ => some (fun _ => (2 : ℚ))) (fun _ => FVal.nan) := by
  refine ⟨rfl, ?_⟩
  decide

/-- Claim C3, amended: only `predict` gates the feature vector before
inference; `predictProbabilities` performs no validation — whenever the model
is loaded it returns exactly the session's output for any feature vector,
finite or not. -/
theorem C3_gating_asymmetry :
    (∀ (features : Fin 5 → FVal) (session : Session),
        validateInputFeatures features = false →
        predict true session features = "invalid_input") ∧
    (∀ (features : Fin 5 → FVal) (session : Session),
        predictProbabilities true session features =
          match session features with
          | none => []
          | some out => List.ofFn out) := by
  constructor
  · intro f s hval
    unfold predict
    simp [hval]
  · intro f s
    rfl

/-- Claim C3 witness: the amended theorem applied to an all-NaN vector. -/
theorem C3_witness :
    validateInputFeatures (fun _ => FVal.nan) = false ∧
    predict true (fun _ => some (fun _ => (1 : ℚ))) (fun _ => FVal.nan) =
      "invalid_input" :=
  ⟨by decide,
    C3_gating_asymmetry.1 (fun _ => FVal.nan)
      (fun _ => some (fun _ => (1 : ℚ))) (by decide)⟩

theorem argmax_fold (scores : List ℚ) (k : ℕ) :
    ((List.range' 1 k).foldl (argmaxStep scores) (0, scores.getD 0 0)).2 =
      scores.getD
        ((List.range' 1 k).foldl (argmaxStep scores) (0, scores.getD 0 0)).1 0 ∧
    ((List.range' 1 k).foldl (argmaxStep scores) (0, scores.getD 0 0)).1 ≤ k ∧
    (∀ j ≤ k, scores.getD j 0 ≤
      ((List.range' 1 k).foldl (argmaxStep scores) (0, scores.getD 0 0)).2) ∧
    (∀ j < ((List.range' 1 k).foldl (argmaxStep scores) (0, scores.getD 0 0)).1,
      scores.getD j 0 <
        ((List.range' 1 k).foldl (argmaxStep scores) (0, scores.getD 0 0)).2) := by
  induction k with
  | zero =>
    refine ⟨rfl, le_refl 0, ?_, ?_⟩
    · intro j hj
      interval_cases j
      exact le_refl _
    · intro j hj
      exact absurd hj (Nat.not_lt_zero j)
  | succ k ih =>
    obtain ⟨ih1, ih2, ih3, ih4⟩ := ih
    have hconcat : List.range' 1 (k + 1) = List.range' 1 k ++ [1 + k] := by
      have := @List.range'_concat 1 1 k
      simpa using this
    rw [hconcat, List.foldl_append, List.foldl_cons, List.foldl_nil]
    set r := (List.range' 1 k).foldl (argmaxStep scores) (0, scores.getD 0 0)
      with hr
    unfold argmaxStep
    by_cases hgt : scores.getD (1 + k) 0 > r.2
    · rw [if_pos hgt]
      refine ⟨rfl, by omega, ?_, ?_⟩
      · intro j hj
        rcases Nat.lt_or_ge j (k + 1) with hlt | hge
        · exact le_of_lt (lt_of_le_of_lt (ih3 j (by omega)) hgt)
        · have : j = 1 + k := by omega
          rw [this]
      · intro j hj
        simp only at hj
        exact lt_of_le_of_lt (ih3 j (by omega)) hgt
    · rw [if_neg hgt]
      push_neg at hgt
      refine ⟨ih1, by omega, ?_, ih4⟩
      intro j hj
      rcases Nat.lt_or_ge j (k + 1) with hlt | hge
      · exact ih3 j (by omega)
      · have : j = 1 + k := by omega
        rw [this]
        exact hgt

theorem getD_ofFn10 (f : Fin 10 → ℚ) (j : ℕ) (h : j < 10) :
    (List.ofFn f).getD j 0 = f ⟨j, h⟩ := by
  rw [List.getD_eq_getElem (List.ofFn f) 0 (by simpa using h)]
  rw [List.getElem_ofFn]

/-- Claim C4: on a successful inference, `predict` returns the label at the
arg-max of the 10 scores, ties resolved toward the lowest index, and reports
low confidence exactly when the winning score is below the 0.1 floor. -/
theorem C4_predict_argmax (session : Session) (features : Fin 5 → FVal)
    (out : Fin 10 → ℚ) (i : Fin 10)
    (hval : validateInputFeatures features = true)
    (hrun : session features = some out)
    (hi : isLowestArgmax out i) :
    predict true session features =
      if out i < mkRat 1 10 then "low_confidence"
      else getMoodLabels.getD (i : ℕ) "unknown" := by
  unfold predict
  rw [hval]
  simp only [not_true_eq_false, if_false, ite_false, hrun]
  have hlen : getMoodLabels.length = 10 := by decide
  obtain ⟨h1, h2, h3, h4⟩ := argmax_fold (List.ofFn out) 9
  set s := (List.range' 1 9).foldl (argmaxStep (List.ofFn out))
    (0, (List.ofFn out).getD 0 0) with hsdef
  have hs1 : s.1 < 10 := by omega
  have hval_s : s.2 = out ⟨s.1, hs1⟩ := by
    rw [h1, getD_ofFn10 out s.1 hs1]
  -- the scan lands exactly on the lowest arg-max index
  have hmax_le : out i ≤ s.2 := by
    have := h3 (i : ℕ) (by omega)
    rwa [getD_ofFn10 out (i : ℕ) i.isLt] at this
  have hle_max : s.2 ≤ out i := by
    rw [hval_s]
    exact hi.1 _
  rw [hval_s] at hmax_le hle_max
  have hout_eq : out ⟨s.1, hs1⟩ = out i := le_antisymm hle_max hmax_le
  have hi_le : (i : ℕ) ≤ s.1 := hi.2 ⟨s.1, hs1⟩ hout_eq
  have hs_le : s.1 ≤ (i : ℕ) := by
    by_contra hlt
    push_neg at hlt
    have hcontra := h4 (i : ℕ) hlt
    rw [getD_ofFn10 out (i : ℕ) i.isLt, hval_s] at hcontra
    exact absurd (lt_of_lt_of_le hcontra hle_max) (lt_irrefl _)
  have hfin : s.1 = (i : ℕ) := le_antisymm hs_le hi_le
  have hz : argmaxScan (List.ofFn out) 10 = ((i : ℕ), out i) := by
    have hsz : s = ((i : ℕ), out i) := by
      have hs2 : s.2 = out i := by
        rw [hval_s]
        have hfi : (⟨s.1, hs1⟩ : Fin 10) = i := Fin.ext hfin
        rw [hfi]
      exact Prod.ext hfin hs2
    exact hsz
  rw [hlen]
  simp only [ne_eq, not_true_eq_false, if_false, ite_false]
  rw [hz]
  show (if out i < mkRat 1 10 then "low_confidence"
      else if (i : ℕ) < 10 then getMoodLabels.getD (i : ℕ) "unknown"
      else "unknown") =
    if out i < mkRat 1 10 then "low_confidence" else getMoodLabels.getD (i : ℕ) "unknown"
  by_cases hlow : out i < mkRat 1 10
  · rw [if_pos hlow, if_pos hlow]
  · rw [if_neg hlow, if_neg hlow, if_pos i.isLt]

/-- Claim C4 witness: scores peaking at index 3 select the label at index 3
with no low-confidence report. -/
theorem C4_witness :
    validateInputFeatures c4Features = true ∧
    (fun _ : Fin 5 → FVal => some c4Scores) c4Features = some c4Scores ∧
    isLowestArgmax c4Scores 3 ∧
    predict true (fun _ => some c4Scores) c4Features =
      if c4Scores 3 < mkRat 1 10 then "low_confidence"
      else getMoodLabels.getD ((3 : Fin 10) : ℕ) "unknown" :=
  ⟨by decide, rfl,
    by unfold isLowestArgmax c4Scores; exact ⟨by decide, by decide⟩,
    C4_predict_argmax (fun _ => some c4Scores) c4Features c4Scores 3
      (by decide) rfl
      (by unfold isLowestArgmax c4Scores; exact ⟨by decide, by decide⟩)⟩

/-- Claim C5: a MIDI input that fails to parse, has fewer than 2 (drum note-on)
onsets, or has non-positive total duration yields the fixed fallback feature
vector (tempo 120, all other features 0) without entering the statistics
computation. -/
theorem C5_midi_fallback (midi : Option MidiData)
    (h : midi = none ∨ ∃ m, midi = some m ∧
      ((midiNoteTimes m).length < 2 ∨ midiEndTime m ≤ 0)) :
    extractFeaturesFromMidi midi = fallbackGrooveFeatures := by
  rcases h with h | ⟨m, hm, hcond⟩
  · rw [h]
    rfl
  · rw [hm]
    show extractFeaturesFromMidiParsed m = fallbackGrooveFeatures
    unfold extractFeaturesFromMidiParsed
    rw [if_pos hcond]

/-- Claim C5 witness: the fallback on a failed parse and on the one-onset file. -/
theorem C5_witness :
    ((none : Option MidiData) = none ∨ ∃ m, (none : Option MidiData) = some m ∧
      ((midiNoteTimes m).length < 2 ∨ midiEndTime m ≤ 0)) ∧
    ((some c5Midi = none ∨ ∃ m, some c5Midi = some m ∧
      ((midiNoteTimes m).length < 2 ∨ midiEndTime m ≤ 0))) ∧
    extractFeaturesFromMidi none = fallbackGrooveFeatures ∧
    extractFeaturesFromMidi (some c5Midi) = fallbackGrooveFeatures :=
  ⟨Or.inl rfl,
   Or.inr ⟨c5Midi, rfl, Or.inl (by decide)⟩,
   C5_midi_fallback none (Or.inl rfl),
   C5_midi_fallback (some c5Midi) (Or.inr ⟨c5Midi, rfl, Or.inl (by decide)⟩)⟩

/-- Claim C6: blending any profile with itself at any weight returns that
profile unchanged in all six dimensions. -/
theorem C6_blend_self_identity (p : EmotionalProfile) (w : ℚ) :
    blendProfiles p p w = p := by
  cases p
  unfold blendProfiles
  simp only [EmotionalProfile.mk.injEq]
  refine ⟨?_, ?_, ?_, ?_, ?_, ?_⟩ <;> ring

/-- Claim C8: with every profile dimension at 0, `processGroove` returns the
message list (timestamps, velocities, count) and the RNG state unchanged. -/
theorem C8_processGroove_zero_noop (midiMessages : List MidiMessage)
    (tempo timeSignature : ℚ) (r : Rng) :
    processGroove ⟨0, 0, 0, 0, 0, 0⟩ midiMessages tempo timeSignature r =
      (midiMessages, r) := by
  have h1 : ∀ l t, applySwing l (0 : ℚ) t = l := fun l t => by
    unfold applySwing
    rw [if_pos le_rfl]
  have h2 : ∀ l t r', applyMicroTiming l (0 : ℚ) t r' = (l, r') :=
    fun l t r' => by
      unfold applyMicroTiming
      rw [if_pos le_rfl]
  have h3 : ∀ l ts', applyAccentPattern l (0 : ℚ) ts' = l := fun l ts' => by
    unfold applyAccentPattern
    rw [if_pos le_rfl]
  have h4 : ∀ l r', applyVelocityVariation l (0 : ℚ) r' = (l, r') :=
    fun l r' => by
      unfold applyVelocityVariation
      rw [if_pos le_rfl]
  have h5 : ∀ l t r', addGhostNotes l (0 : ℚ) t r' = (l, r') := fun l t r' => by
    unfold addGhostNotes
    rw [if_pos le_rfl]
  unfold processGroove
  split
  · rfl
  · simp only [h1, h2, h3, h4, h5]

theorem getD_map_mul (c : ℚ) (w : List ℚ) (i : ℕ) :
    (w.map (fun x => c * x)).getD i 0 = c * w.getD i 0 := by
  induction w generalizing i with
  | nil => simp
  | cons a l ih =>
    cases i with
    | zero => simp
    | succ n => simpa using ih n

theorem foldl_add_map_mul (c : ℚ) (w : List ℚ) (a : ℚ) :
    (w.map (fun x => c * x)).foldl (· + ·) (c * a) =
      c * w.foldl (· + ·) a := by
  induction w generalizing a with
  | nil => simp
  | cons x l ih =>
    simp only [List.map_cons, List.foldl_cons]
    rw [← mul_add]
    exact ih (a + x)

theorem totalWeight_map_mul (c : ℚ) (w : List ℚ) :
    (w.map (fun x => c * x)).foldl (· + ·) 0 = c * w.foldl (· + ·) 0 := by
  have h := foldl_add_map_mul c w 0
  rwa [mul_zero] at h

theorem qdiv_mul_left (c a b : ℚ) (hc : c ≠ 0) :
    qdiv (c * a) (c * b) = qdiv a b := by
  rw [qdiv_eq, qdiv_eq, mul_div_mul_left a b hc]

theorem mul_nonpos_iff_of_pos (c T : ℚ) (hc : 0 < c) : c * T ≤ 0 ↔ T ≤ 0 := by
  constructor <;> intro h <;> nlinarith

theorem chc_foldl_scale (env : Env) (c : ℚ) (w : List ℚ)
    (l : List (ℕ × String)) :
    ∀ (tc tw : ℚ) (r : Rng),
      l.foldl (chcStep env (w.map (fun x => c * x))) (c * tc, c * tw, r) =
        (c * (l.foldl (chcStep env w) (tc, tw, r)).1,
         c * (l.foldl (chcStep env w) (tc, tw, r)).2.1,
         (l.foldl (chcStep env w) (tc, tw, r)).2.2) := by
  induction l with
  | nil => intro tc tw r; rfl
  | cons im l ih =>
    intro tc tw r
    simp only [List.foldl_cons]
    have hstep : chcStep env (w.map (fun x => c * x)) (c * tc, c * tw, r) im =
        (c * (chcStep env w (tc, tw, r) im).1,
         c * (chcStep env w (tc, tw, r) im).2.1,
         (chcStep env w (tc, tw, r) im).2.2) := by
      unfold chcStep
      simp only [getD_map_mul, Prod.mk.injEq]
      refine ⟨by ring, by ring, trivial⟩
    rw [hstep]
    exact ih _ _ _

theorem chc_scale (env : Env) (moods : List String) (weights : List ℚ)
    (r : Rng) (c : ℚ) (hc : 0 < c) :
    calculateHybridConfidence env moods (weights.map (fun x => c * x)) r =
      calculateHybridConfidence env moods weights r := by
  unfold calculateHybridConfidence
  by_cases hemp : moods.isEmpty = true
  · rw [if_pos hemp, if_pos hemp]
  · rw [if_neg hemp, if_neg hemp]
    have hloop := chc_foldl_scale env c weights moods.enum 0 0 r
    rw [mul_zero] at hloop
    simp only [hloop]
    by_cases hT : (moods.enum.foldl (chcStep env weights) (0, 0, r)).2.1 ≤ 0
    · rw [if_pos ((mul_nonpos_iff_of_pos c _ hc).2 hT), if_pos hT]
    · rw [if_neg (fun hcon =>
          hT ((mul_nonpos_iff_of_pos c _ hc).1 hcon)), if_neg hT]
      rw [qdiv_mul_left _ _ _ (ne_of_gt hc)]

theorem blend_scale (patterns : List GeneratedPattern) (weights : List ℚ)
    (c : ℚ) (hc : 0 < c) :
    blendPatterns patterns (weights.map (fun x => c * x)) =
      blendPatterns patterns weights := by
  unfold blendPatterns
  cases patterns with
  | nil => rfl
  | cons p0 ps =>
    simp only [totalWeight_map_mul]
    by_cases hT : weights.foldl (· + ·) 0 ≤ 0
    · rw [if_pos ((mul_nonpos_iff_of_pos c _ hc).2 hT), if_pos hT]
    · rw [if_neg (fun hcon =>
          hT ((mul_nonpos_iff_of_pos c _ hc).1 hcon)), if_neg hT]
      have hmsgs : ∀ (acc : List MidiMessage) (i : ℕ),
          acc ++ (((p0 :: ps).getD i p0).messages.map (fun message =>
            if message.isNoteOn then
              noteOnMsg message.channel message.note
                (qTrunc ((message.velocity : ℚ) *
                  qdiv ((weights.map (fun x => c * x)).getD i 0)
                    (c * weights.foldl (· + ·) 0))) 0
            else message)) =
          acc ++ (((p0 :: ps).getD i p0).messages.map (fun message =>
            if message.isNoteOn then
              noteOnMsg message.channel message.note
                (qTrunc ((message.velocity : ℚ) *
                  qdiv (weights.getD i 0) (weights.foldl (· + ·) 0))) 0
            else message)) := by
        intro acc i
        rw [getD_map_mul, qdiv_mul_left _ _ _ (ne_of_gt hc)]
      rw [List.foldl_ext _ _ [] (fun acc i _ => hmsgs acc i)]

/-- Claim C7: hybrid generation is invariant under uniform positive scaling of
the raw weights — the weights enter only through `w_i / Σw` (blending), the
`Σw ≤ 0` guard, and the confidence average `Σ c_i·w_i / Σw`, all
scale-invariant; the RNG consumption is weight-independent. -/
theorem C7_hybrid_weight_scaling (env : Env) (moods : List String)
    (weights : List ℚ) (duration : ℚ) (r : Rng) (c : ℚ) (hc : 0 < c) :
    generateHybridPattern env moods (weights.map (fun x => c * x)) duration r =
      generateHybridPattern env moods weights duration r := by
  have hchc : ∀ r' : Rng,
      calculateHybridConfidence env moods (weights.map (fun x => c * x)) r' =
        calculateHybridConfidence env moods weights r' :=
    fun r' => chc_scale env moods weights r' c hc
  have hbl : ∀ ps : List GeneratedPattern,
      blendPatterns ps (weights.map (fun x => c * x)) =
        blendPatterns ps weights :=
    fun ps => blend_scale ps weights c hc
  unfold generateHybridPattern
  simp only [List.length_map]
  by_cases hg : moods.isEmpty = true ∨ moods.length ≠ weights.length
  · rw [if_pos hg, if_pos hg]
  · rw [if_neg hg, if_neg hg]
    by_cases hsame : moods.all (fun m => m == moods.headD "") = true
    · rw [if_pos hsame, if_pos hsame]
      simp only [hchc]
    · rw [if_neg hsame, if_neg hsame]
      simp only [totalWeight_map_mul]
      by_cases hT : weights.foldl (· + ·) 0 ≤ 0
      · rw [if_pos ((mul_nonpos_iff_of_pos c _ hc).2 hT), if_pos hT]
      · rw [if_neg (fun hcon =>
            hT ((mul_nonpos_iff_of_pos c _ hc).1 hcon)), if_neg hT]
        simp only [hbl, hchc]

/-- Claim C7 witness: `{chill:2, energetic:2}` equals `{chill:1, energetic:1}`
from the same RNG state. -/
theorem C7_witness :
    (0 : ℚ) < 2 ∧
    generateHybridPattern env0 ["chill", "energetic"]
        ([1, 1].map (fun x => (2 : ℚ) * x)) 1 ⟨7⟩ =
      generateHybridPattern env0 ["chill", "energetic"] [1, 1] 1 ⟨7⟩ :=
  ⟨by norm_num,
    C7_hybrid_weight_scaling env0 ["chill", "energetic"] [1, 1] 1 ⟨7⟩ 2
      (by norm_num)⟩

theorem one_le_jlimit_1_127 (v : ℤ) : 1 ≤ jlimit 1 127 v := by
  unfold jlimit
  split_ifs <;> omega

theorem intensifiedStep_messages (mood : String) (intensity : ℤ) (st : GenSt)
    (i : ℕ) :
    ∃ (note velocity : ℤ) (t0 t1 : ℚ),
      1 ≤ velocity ∧
      (intensifiedStep mood intensity st i).messages =
        st.messages ++
          [noteOnMsg 0 note velocity t0, noteOffMsg 0 note velocity t1] := by
  unfold intensifiedStep
  refine ⟨_, _, _, _, ?_, rfl⟩
  dsimp only
  split
  · exact one_le_jlimit_1_127 _
  · exact one_le_jlimit_1_127 _

theorem noteOnCount_append (l1 l2 : List MidiMessage) :
    noteOnCount (l1 ++ l2) = noteOnCount l1 + noteOnCount l2 := by
  unfold noteOnCount
  rw [List.filter_append, List.length_append]

theorem intensified_fold_count (mood : String) (intensity : ℤ) (l : List ℕ) :
    ∀ st : GenSt,
      noteOnCount ((l.foldl (intensifiedStep mood intensity) st).messages) =
        noteOnCount st.messages + l.length := by
  induction l with
  | nil => intro st; simp
  | cons i l ih =>
    intro st
    rw [List.foldl_cons, ih]
    obtain ⟨note, velocity, t0, t1, hv, hmsgs⟩ :=
      intensifiedStep_messages mood intensity st i
    rw [hmsgs, noteOnCount_append]
    have hvne : velocity ≠ 0 := by omega
    have hpair :
        noteOnCount [noteOnMsg 0 note velocity t0,
          noteOffMsg 0 note velocity t1] = 1 := by
      simp [noteOnCount, noteOnMsg, noteOffMsg, MidiMessage.isNoteOn, hvne]
    rw [hpair]
    simp only [List.length_cons]
    omega

/-- Closed form for the note-on count of an intensified pattern: the loop emits
exactly `noteCount` note-ons. -/
theorem gIMP_noteOnCount (mood : String) (intensity : ℤ) (duration : ℚ)
    (r : Rng) :
    noteOnCount
        (generateIntensifiedMoodPattern mood intensity duration r).1.messages =
      (qTrunc (duration * 4 * (1 + ((intensity : ℚ) - 1) * mkRat 1 5))).toNat := by
  unfold generateIntensifiedMoodPattern
  dsimp only
  rw [intensified_fold_count]
  simp [noteOnCount]

theorem qTrunc_le_qTrunc (a b : ℚ) (ha : 0 ≤ a) (hab : a ≤ b) :
    qTrunc a ≤ qTrunc b := by
  unfold qTrunc
  rw [if_neg (not_lt.2 ha), if_neg (not_lt.2 (ha.trans hab))]
  exact Int.floor_le_floor hab

/-- Claim C9, amended: a hybrid spec repeating one mood routes to the
intensification algorithm; the note-on count (density) is non-decreasing in
the repetition count, and the chill example at 4 s emits 22 note-ons at
intensity 3 against 16 at intensity 1 (strictly more). Mean velocity is *not*
monotone for every RNG state (see the counterexample). -/
theorem C9_intensification (env : Env) (mood : String) (weights : List ℚ)
    (n : ℕ) (duration : ℚ) (r r' : Rng) (k k' : ℤ)
    (hn : 0 < n) (hw : weights.length = n)
    (hk : 1 ≤ k) (hkk : k ≤ k') (hd : 0 ≤ duration) :
    (generateHybridPattern env (List.replicate n mood) weights
        duration r).1.messages =
      (generateIntensifiedMoodPattern mood (n : ℤ) duration r).1.messages ∧
    noteOnCount
        (generateIntensifiedMoodPattern mood k duration r).1.messages ≤
      noteOnCount
        (generateIntensifiedMoodPattern mood k' duration r').1.messages ∧
    noteOnCount (generateIntensifiedMoodPattern "chill" 3 4 r).1.messages =
      noteOnCount (generateIntensifiedMoodPattern "chill" 1 4 r').1.messages
        + 6 := by
  have hmk : mkRat 1 5 = (5 : ℚ)⁻¹ := by
    rw [Rat.mkRat_eq_div]
    norm_num
  refine ⟨?_, ?_, ?_⟩
  · -- routing
    unfold generateHybridPattern
    have hne : ¬((List.replicate n mood).isEmpty = true ∨
        (List.replicate n mood).length ≠ weights.length) := by
      rw [not_or]
      constructor
      · simp only [List.isEmpty_iff, List.replicate_eq_nil_iff]
        omega
      · rw [List.length_replicate, hw]
        exact fun h => h rfl
    rw [if_neg hne]
    have hh : (List.replicate n mood).headD "" = mood := by
      cases n with
      | zero => omega
      | succ m => rfl
    have hall : (List.replicate n mood).all
        (fun m => m == (List.replicate n mood).headD "") = true := by
      rw [List.all_eq_true]
      intro x hx
      rw [List.eq_of_mem_replicate hx, hh]
      simp
    rw [if_pos hall]
    simp only [hh, List.length_replicate]
  · -- note-on count monotone in the repetition count
    rw [gIMP_noteOnCount, gIMP_noteOnCount]
    apply Int.toNat_le_toNat
    apply qTrunc_le_qTrunc
    · have h1 : (1 : ℚ) ≤ (k : ℚ) := by exact_mod_cast hk
      rw [hmk]
      nlinarith
    · have h1 : (1 : ℚ) ≤ (k : ℚ) := by exact_mod_cast hk
      have h2 : (k : ℚ) ≤ (k' : ℚ) := by exact_mod_cast hkk
      rw [hmk]
      nlinarith
  · -- the documented example: 22 = 16 + 6 note-ons
    rw [gIMP_noteOnCount, gIMP_noteOnCount, hmk]
    have e3 : (4 : ℚ) * 4 * (1 + (((3 : ℤ) : ℚ) - 1) * (5 : ℚ)⁻¹) = 112 / 5 := by
      push_cast
      norm_num
    have e1 : (4 : ℚ) * 4 * (1 + (((1 : ℤ) : ℚ) - 1) * (5 : ℚ)⁻¹) = 16 := by
      push_cast
      norm_num
    rw [e3, e1]
    unfold qTrunc
    rw [if_neg (by norm_num), if_neg (by norm_num)]
    have h22 : ((112 : ℚ) / 5).floor = 22 := by
      show ⌊(112 : ℚ) / 5⌋ = 22
      rw [Int.floor_eq_iff]
      constructor <;> norm_num
    have h16 : ((16 : ℚ)).floor = 16 := by
      show ⌊(16 : ℚ)⌋ = 16
      rw [show ((16 : ℚ)) = ((16 : ℤ) : ℚ) by norm_num, Int.floor_intCast]
    rw [h22, h16]
    rfl

/-- Claim C9, counterexample: from LCG state 37884 with duration 0.3 s, the
intensified chill pattern has the same note-on count at intensities 2 and 3
but a strictly lower mean velocity at intensity 3 — the random velocity
variation makes mean velocity non-monotone in the repetition count. -/
theorem C9_counterexample :
    noteOnCount (generateIntensifiedMoodPattern "chill" 2 (mkRat 3 10)
        ⟨37884⟩).1.messages =
      noteOnCount (generateIntensifiedMoodPattern "chill" 3 (mkRat 3 10)
        ⟨37884⟩).1.messages ∧
    meanVelocity (generateIntensifiedMoodPattern "chill" 3 (mkRat 3 10)
        ⟨37884⟩).1.messages <
      meanVelocity (generateIntensifiedMoodPattern "chill" 2 (mkRat 3 10)
        ⟨37884⟩).1.messages := by
  with_unfolding_all decide

/-- Claim C9 witness: the amended theorem at mood "chill", 2 repetitions,
duration 1, intensities 1 ≤ 2. -/
theorem C9_witness :
    0 < 2 ∧ ([mkRat 1 2, mkRat 1 2] : List ℚ).length = 2 ∧
    (1 : ℤ) ≤ 1 ∧ (1 : ℤ) ≤ 2 ∧ (0 : ℚ) ≤ 1 ∧
    ((generateHybridPattern env0 (List.replicate 2 "chill")
        [mkRat 1 2, mkRat 1 2] 1 ⟨5⟩).1.messages =
      (generateIntensifiedMoodPattern "chill" ((2 : ℕ) : ℤ) 1 ⟨5⟩).1.messages ∧
    noteOnCount (generateIntensifiedMoodPattern "chill" 1 1 ⟨5⟩).1.messages ≤
      noteOnCount (generateIntensifiedMoodPattern "chill" 2 1 ⟨9⟩).1.messages ∧
    noteOnCount (generateIntensifiedMoodPattern "chill" 3 4 ⟨5⟩).1.messages =
      noteOnCount (generateIntensifiedMoodPattern "chill" 1 4 ⟨9⟩).1.messages
        + 6) :=
  ⟨by norm_num, rfl, le_refl 1, by norm_num, by norm_num,
    C9_intensification env0 "chill" [mkRat 1 2, mkRat 1 2] 2 1 ⟨5⟩ ⟨9⟩ 1 2
      (by norm_num) rfl (le_refl 1) (by norm_num) (by norm_num)⟩

/-! ## FeatureExtractor, streaming-audio path (FeatureExtractor.cpp:13-82 and
139-437) -/

theorem evicted_vel_length (M e : ℕ) (A V P : List ℚ)
    (hv : V.length = A.length) :
    ((if A.length > M then (⟨A.drop e, V.drop e, P.drop e⟩ : ExtractorState)
      else ⟨A, V, P⟩)).velocityHistory.length =
    ((if A.length > M then (⟨A.drop e, V.drop e, P.drop e⟩ : ExtractorState)
      else ⟨A, V, P⟩)).audioHistory.length := by
  split
  · simp only [List.length_drop, hv]
  · exact hv

theorem evicted_pitch_length (M e : ℕ) (A V P : List ℚ)
    (hp : P.length = A.length) :
    ((if A.length > M then (⟨A.drop e, V.drop e, P.drop e⟩ : ExtractorState)
      else ⟨A, V, P⟩)).pitchHistory.length =
    ((if A.length > M then (⟨A.drop e, V.drop e, P.drop e⟩ : ExtractorState)
      else ⟨A, V, P⟩)).audioHistory.length := by
  split
  · simp only [List.length_drop, hp]
  · exact hp

theorem evicted_length_le (M : ℕ) (A V P : List ℚ) :
    ((if A.length > M then
        (⟨A.drop (A.length - M), V.drop (A.length - M),
          P.drop (A.length - M)⟩ : ExtractorState)
      else ⟨A, V, P⟩)).audioHistory.length ≤ M := by
  split
  · rename_i h
    show (A.drop (A.length - M)).length ≤ M
    simp only [List.length_drop]
    omega
  · rename_i h
    show A.length ≤ M
    omega

theorem evicted_audio_suffix (M e : ℕ) (A V P : List ℚ) :
    ((if A.length > M then (⟨A.drop e, V.drop e, P.drop e⟩ : ExtractorState)
      else ⟨A, V, P⟩)).audioHistory <:+ A := by
  split
  · exact List.drop_suffix _ _
  · exact List.suffix_refl _

theorem evicted_vel_suffix (M e : ℕ) (A V P : List ℚ) :
    ((if A.length > M then (⟨A.drop e, V.drop e, P.drop e⟩ : ExtractorState)
      else ⟨A, V, P⟩)).velocityHistory <:+ V := by
  split
  · exact List.drop_suffix _ _
  · exact List.suffix_refl _

theorem evicted_pitch_suffix (M e : ℕ) (A V P : List ℚ) :
    ((if A.length > M then (⟨A.drop e, V.drop e, P.drop e⟩ : ExtractorState)
      else ⟨A, V, P⟩)).pitchHistory <:+ P := by
  split
  · exact List.drop_suffix _ _
  · exact List.suffix_refl _

theorem historyUpdate_vel_length (st : ExtractorState) (samples : List ℚ)
    (hv : st.velocityHistory.length = st.audioHistory.length) :
    (historyUpdate st samples).velocityHistory.length =
      (historyUpdate st samples).audioHistory.length :=
  evicted_vel_length MAX_HISTORY_SIZE
    ((st.audioHistory ++ samples).length - MAX_HISTORY_SIZE)
    (st.audioHistory ++ samples)
    (st.velocityHistory ++ samples.map (fun s => |s|))
    (st.pitchHistory ++ samples.map (fun s => (s + 1) * 64))
    (by simp [hv])

theorem historyUpdate_pitch_length (st : ExtractorState) (samples : List ℚ)
    (hp : st.pitchHistory.length = st.audioHistory.length) :
    (historyUpdate st samples).pitchHistory.length =
      (historyUpdate st samples).audioHistory.length :=
  evicted_pitch_length MAX_HISTORY_SIZE
    ((st.audioHistory ++ samples).length - MAX_HISTORY_SIZE)
    (st.audioHistory ++ samples)
    (st.velocityHistory ++ samples.map (fun s => |s|))
    (st.pitchHistory ++ samples.map (fun s => (s + 1) * 64))
    (by simp [hp])

theorem historyUpdate_length_le (st : ExtractorState) (samples : List ℚ) :
    (historyUpdate st samples).audioHistory.length ≤ MAX_HISTORY_SIZE :=
  evicted_length_le MAX_HISTORY_SIZE
    (st.audioHistory ++ samples)
    (st.velocityHistory ++ samples.map (fun s => |s|))
    (st.pitchHistory ++ samples.map (fun s => (s + 1) * 64))

theorem historyUpdate_audio_suffix (st : ExtractorState) (samples : List ℚ) :
    (historyUpdate st samples).audioHistory <:+ st.audioHistory ++ samples :=
  evicted_audio_suffix MAX_HISTORY_SIZE
    ((st.audioHistory ++ samples).length - MAX_HISTORY_SIZE)
    (st.audioHistory ++ samples)
    (st.velocityHistory ++ samples.map (fun s => |s|))
    (st.pitchHistory ++ samples.map (fun s => (s + 1) * 64))

theorem historyUpdate_vel_suffix (st : ExtractorState) (samples : List ℚ) :
    (historyUpdate st samples).velocityHistory <:+
      st.velocityHistory ++ samples.map (fun s => |s|) :=
  evicted_vel_suffix MAX_HISTORY_SIZE
    ((st.audioHistory ++ samples).length - MAX_HISTORY_SIZE)
    (st.audioHistory ++ samples)
    (st.velocityHistory ++ samples.map (fun s => |s|))
    (st.pitchHistory ++ samples.map (fun s => (s + 1) * 64))

theorem historyUpdate_pitch_suffix (st : ExtractorState) (samples : List ℚ) :
    (historyUpdate st samples).pitchHistory <:+
      st.pitchHistory ++ samples.map (fun s => (s + 1) * 64) :=
  evicted_pitch_suffix MAX_HISTORY_SIZE
    ((st.audioHistory ++ samples).length - MAX_HISTORY_SIZE)
    (st.audioHistory ++ samples)
    (st.velocityHistory ++ samples.map (fun s => |s|))
    (st.pitchHistory ++ samples.map (fun s => (s + 1) * 64))

theorem pair_fst_ite (c : Prop) [Decidable c] (s : ExtractorState)
    (f g : Option GrooveFeatures) :
    ((if c then (s, f) else (s, g)) : ExtractorState × Option GrooveFeatures).1 =
      s := by
  split <;> rfl

theorem pair_snd_isNone_iff (c : Prop) [Decidable c] (s : ExtractorState)
    (g : GrooveFeatures) :
    (((if c then (s, (none : Option GrooveFeatures)) else (s, some g)) :
        ExtractorState × Option GrooveFeatures).2.isNone ↔ c) := by
  split
  · rename_i h
    simp [h]
  · rename_i h
    simp [h]

theorem extractFeaturesFromAudio_fst (env : Env) (st : ExtractorState)
    (buffer : List (List ℚ)) (sampleRate : ℚ) :
    (extractFeaturesFromAudio env st buffer sampleRate).1 =
      historyUpdate st (flattenBuffer buffer) :=
  pair_fst_ite _ _ _ _

theorem extractFeaturesFromAudio_isNone (env : Env) (st : ExtractorState)
    (buffer : List (List ℚ)) (sampleRate : ℚ) :
    ((extractFeaturesFromAudio env st buffer sampleRate).2.isNone ↔
      (historyUpdate st (flattenBuffer buffer)).audioHistory.length <
        ratToSizeT sampleRate) :=
  pair_snd_isNone_iff _ _ _

/-- Claim C10: after every call to `extractFeaturesFromAudio` starting from a
state whose three histories have equal length (as the constructor's empty
state does), the three histories again have equal length, the retained audio
history never exceeds `MAX_HISTORY_SIZE` samples, eviction removes only the
oldest entries (each post-history is a suffix of the corresponding pre-history
with the new samples appended), and the call returns `none` exactly when the
retained history is shorter than `static_cast<size_t>(sampleRate)` samples. -/
theorem C10_audio_history_invariants (env : Env) (st : ExtractorState)
    (buffer : List (List ℚ)) (sampleRate : ℚ)
    (hv : st.velocityHistory.length = st.audioHistory.length)
    (hp : st.pitchHistory.length = st.audioHistory.length) :
    (extractFeaturesFromAudio env st buffer sampleRate).1.velocityHistory.length =
      (extractFeaturesFromAudio env st buffer sampleRate).1.audioHistory.length ∧
    (extractFeaturesFromAudio env st buffer sampleRate).1.pitchHistory.length =
      (extractFeaturesFromAudio env st buffer sampleRate).1.audioHistory.length ∧
    (extractFeaturesFromAudio env st buffer sampleRate).1.audioHistory.length ≤
      MAX_HISTORY_SIZE ∧
    ((extractFeaturesFromAudio env st buffer sampleRate).1.audioHistory <:+
      st.audioHistory ++ flattenBuffer buffer) ∧
    ((extractFeaturesFromAudio env st buffer sampleRate).1.velocityHistory <:+
      st.velocityHistory ++ (flattenBuffer buffer).map (fun s => |s|)) ∧
    ((extractFeaturesFromAudio env st buffer sampleRate).1.pitchHistory <:+
      st.pitchHistory ++ (flattenBuffer buffer).map (fun s => (s + 1) * 64)) ∧
    ((extractFeaturesFromAudio env st buffer sampleRate).2.isNone ↔
      (extractFeaturesFromAudio env st buffer sampleRate).1.audioHistory.length <
        ratToSizeT sampleRate) := by
  have hfst := extractFeaturesFromAudio_fst env st buffer sampleRate
  refine ⟨?_, ?_, ?_, ?_, ?_, ?_, ?_⟩
  · rw [hfst]; exact historyUpdate_vel_length st _ hv
  · rw [hfst]; exact historyUpdate_pitch_length st _ hp
  · rw [hfst]; exact historyUpdate_length_le st _
  · rw [hfst]; exact historyUpdate_audio_suffix st _
  · rw [hfst]; exact historyUpdate_vel_suffix st _
  · rw [hfst]; exact historyUpdate_pitch_suffix st _
  · rw [hfst]
    exact extractFeaturesFromAudio_isNone env st buffer sampleRate

theorem C10_witness :
    initialExtractorState.velocityHistory.length =
      initialExtractorState.audioHistory.length ∧
    initialExtractorState.pitchHistory.length =
      initialExtractorState.audioHistory.length ∧
    ((extractFeaturesFromAudio env0 initialExtractorState [[1]] 2).2.isNone ↔
      (extractFeaturesFromAudio env0 initialExtractorState
        [[1]] 2).1.audioHistory.length < ratToSizeT 2) :=
  ⟨rfl, rfl,
    (C10_audio_history_invariants env0 initialExtractorState [[1]] 2 rfl
      rfl).2.2.2.2.2.2⟩

end Aamati

